import Mathlib

/-!
Verification of the data-quality and entity-resolution core of the
`ems_2.0` repository (`backend/app/main.py`,
`backend/app/services/search_utils.py`, `backend/app/services/validators.py`,
`backend/app/services/extraction_utils.py`).

Strings are embedded as `List Char` (named `Str`), and every Python string
operation used by the code under verification is re-implemented explicitly on
that representation, so every definition is executable and every concrete
claim can be settled by `decide` / `rfl`.
-/

namespace EMS

/-- Python `str` values are modelled as lists of characters. -/
abbrev Str := List Char

/-- Coerce a Lean string literal into the `Str` representation. -/
def str (s : String) : Str := s.data

/-- Python whitespace characters recognised by `str.strip()` / `str.split()`
(ASCII subset; the code under test only manipulates ASCII whitespace). -/
def isPyWs (c : Char) : Bool :=
  c = ' ' || c = '\t' || c = '\n' || c = '\x0d' || c = '\x0b' || c = '\x0c'

/-- ASCII lower-casing plus the Latin-1 / Latin-Extended-A letters that the
diacritics table of `search_utils.py` needs (Python's `str.lower()` restricted
to the characters this code base manipulates). -/
def pyLowerChar (c : Char) : Char :=
  if 'A' ≤ c ∧ c ≤ 'Z' then Char.ofNat (c.toNat + 32)
  else if 0xC0 ≤ c.toNat ∧ c.toNat ≤ 0xDE ∧ c.toNat ≠ 0xD7 then Char.ofNat (c.toNat + 32)
  else if 0x100 ≤ c.toNat ∧ c.toNat ≤ 0x17F ∧ c.toNat % 2 = 0 then Char.ofNat (c.toNat + 1)
  else c

def pyLower (s : Str) : Str := s.map pyLowerChar

/-- ASCII upper-casing (Python `str.upper()` on the ASCII letters; the only
use, inside `soundex`, is immediately followed by a lower-casing
normalisation, so non-ASCII behaviour is irrelevant). -/
def pyUpperChar (c : Char) : Char :=
  if 'a' ≤ c ∧ c ≤ 'z' then Char.ofNat (c.toNat - 32) else c

def pyUpper (s : Str) : Str := s.map pyUpperChar

/-- Python `str.strip()` (no argument): drop leading/trailing whitespace. -/
def pyStrip (s : Str) : Str :=
  (s.dropWhile isPyWs).reverse.dropWhile isPyWs |>.reverse

/-- Python `str.strip(chars)`: drop leading/trailing characters from `cs`. -/
def pyStripChars (cs : List Char) (s : Str) : Str :=
  (s.dropWhile (cs.contains ·)).reverse.dropWhile (cs.contains ·) |>.reverse

/-- Python `str.split()` (no argument): split on whitespace runs, dropping
empty pieces. -/
def pySplitWs (s : Str) : List Str :=
  (s.splitOnP isPyWs).filter (· ≠ [])

/-- Python `substring in string` (also `str.count` is built on this scan):
first index at which `pat` occurs in `s`, if any. -/
def findSub : Str → Str → Option Nat
  | _, [] => some 0
  | [], _ => none
  | s@(_ :: rest), pat =>
      if pat.isPrefixOf s then some 0
      else (findSub rest pat).map (· + 1)

def strContains (s pat : Str) : Bool := (findSub s pat).isSome

/-- Splitting worker; `fuel` is instantiated with `s.length + 1` by the
wrapper, which is enough since every recursive call shortens the string. -/
def pySplitOnGo (sep : Str) : Nat → Str → List Str
  | 0, s => [s]
  | _ + 1, [] => [[]]
  | fuel + 1, c :: rest =>
      if sep ≠ [] ∧ sep.isPrefixOf (c :: rest) then
        [] :: pySplitOnGo sep fuel ((c :: rest).drop sep.length)
      else
        match pySplitOnGo sep fuel rest with
        | [] => [[c]]
        | p :: ps => (c :: p) :: ps

/-- Python `str.split(sep)` for a non-empty separator (the code never splits
on an empty separator — Python would raise there). -/
def pySplitOn (sep : Str) (s : Str) : List Str :=
  pySplitOnGo sep (s.length + 1) s

/-- Counting worker for `pyCount`, fueled like `pySplitOnGo`. -/
def pyCountGo (sub : Str) : Nat → Str → Nat
  | 0, _ => 0
  | _ + 1, [] => 0
  | fuel + 1, c :: rest =>
      if sub ≠ [] ∧ sub.isPrefixOf (c :: rest) then
        1 + pyCountGo sub fuel ((c :: rest).drop sub.length)
      else pyCountGo sub fuel rest

/-- Python `str.count(sub)`: number of non-overlapping occurrences of a
non-empty `sub`, scanning left to right. -/
def pyCount (s sub : Str) : Nat :=
  pyCountGo sub (s.length + 1) s

/-- Worker for `collapseRuns`: the flag records whether the previous
character belonged to a collapsed run. -/
def collapseRunsGo (p : Char → Bool) (rep : Char) : Bool → Str → Str
  | _, [] => []
  | inRun, c :: rest =>
      if p c then
        if inRun then collapseRunsGo p rep true rest
        else rep :: collapseRunsGo p rep true rest
      else c :: collapseRunsGo p rep false rest

/-- Python `re.sub` of every maximal run of characters satisfying `p` by the
single character `rep` (models `re.sub(r'[-_]+', ' ', s)` and
`re.sub(r'\s+', ' ', s)`). -/
def collapseRuns (p : Char → Bool) (rep : Char) (s : Str) : Str :=
  collapseRunsGo p rep false s

/-- Python `'sep'.join(parts)`. -/
def strJoin (sep : Str) : List Str → Str
  | [] => []
  | [p] => p
  | p :: rest => p ++ sep ++ strJoin sep rest

/-- Numeric value of a digit string (Python `int(...)` on digit-only text). -/
def natOfDigits (s : Str) : Nat :=
  s.foldl (fun acc c => acc * 10 + (c.toNat - '0'.toNat)) 0

/-! ## Dates and durations (`search_utils.py`) -/

/-- `datetime.date`: year, month, day. -/
structure PyDate where
  y : Int
  m : Int
  d : Int
  deriving DecidableEq, Repr

/-- Python `date` ordering (lexicographic on year, month, day). -/
def dateLe (a b : PyDate) : Bool :=
  a.y < b.y || (a.y = b.y && (a.m < b.m || (a.m = b.m && a.d ≤ b.d)))

/-- `search_utils.check_date_range_overlap` (lines 281–293): two ranges
overlap iff one starts before the other ends. -/
def check_date_range_overlap (emp_start emp_end search_start search_end : PyDate) : Bool :=
  dateLe emp_start search_end && dateLe search_start emp_end

/-- The overlap classification performed inside
`search_utils.find_employees_in_date_range` (lines 619–624): `"contained"`
when the job interval lies inside the search window, `"contains"` when it
covers the window, `"overlaps"` otherwise; `none` when the ranges do not
overlap at all (the job is skipped). -/
def date_range_overlap_type (job_start job_end search_start search_end : PyDate) :
    Option Str :=
  if check_date_range_overlap job_start job_end search_start search_end then
    some (if dateLe search_start job_start && dateLe job_end search_end then str "contained"
          else if dateLe job_start search_start && dateLe search_end job_end then str "contains"
          else str "overlaps")
  else none

/-- Gregorian leap-year rule (used by day-of-month clamping). -/
def isLeap (y : Int) : Bool :=
  (y % 4 = 0 && y % 100 ≠ 0) || y % 400 = 0

def daysInMonth (y m : Int) : Int :=
  if m = 2 then (if isLeap y then 29 else 28)
  else if m = 4 || m = 6 || m = 9 || m = 11 then 30
  else 31

/-- `d + relativedelta(months=n)` with day-of-month clamping, as
`dateutil.relativedelta` applies it. -/
def addMonthsClamped (a : PyDate) (n : Int) : PyDate :=
  let total := a.y * 12 + (a.m - 1) + n
  let y := total.ediv 12
  let m := total.emod 12 + 1
  ⟨y, m, min a.d (daysInMonth y m)⟩

/-- `relativedelta(e, s).years * 12 + relativedelta(e, s).months`: the raw
month difference, adjusted by one month when adding it to `s` (with day
clamping) overshoots `e`.  This models the normalisation loop of
`dateutil.relativedelta` for date (not datetime) arguments. -/
def monthsBetween (e s : PyDate) : Int :=
  let t := (e.y - s.y) * 12 + (e.m - s.m)
  if dateLe s e then (if dateLe (addMonthsClamped s t) e then t else t - 1)
  else (if dateLe e (addMonthsClamped s t) then t else t + 1)

/-- Month-name table accepted by the modelled `dateutil` parser. -/
def monthIndex (w : Str) : Option Int :=
  if w = str "jan" ∨ w = str "january" then some 1
  else if w = str "feb" ∨ w = str "february" then some 2
  else if w = str "mar" ∨ w = str "march" then some 3
  else if w = str "apr" ∨ w = str "april" then some 4
  else if w = str "may" then some 5
  else if w = str "jun" ∨ w = str "june" then some 6
  else if w = str "jul" ∨ w = str "july" then some 7
  else if w = str "aug" ∨ w = str "august" then some 8
  else if w = str "sep" ∨ w = str "sept" ∨ w = str "september" then some 9
  else if w = str "oct" ∨ w = str "october" then some 10
  else if w = str "nov" ∨ w = str "november" then some 11
  else if w = str "dec" ∨ w = str "december" then some 12
  else none

/-- A 1- or 2-digit number (the day/month tokens `dateutil` accepts). -/
def parseNat2 (s : Str) : Option Nat :=
  if s ≠ [] ∧ s.length ≤ 2 ∧ s.all Char.isDigit then some (natOfDigits s) else none

/-- A 4-digit year token. -/
def parseYear4 (s : Str) : Option Nat :=
  if s.length = 4 ∧ s.all Char.isDigit then some (natOfDigits s) else none

/-- A calendar-valid day/month combination, `none` otherwise (the modelled
`dateutil` raises on impossible dates). -/
def mkValidDate (y m d : Int) : Option PyDate :=
  if 1 ≤ m ∧ m ≤ 12 ∧ 1 ≤ d ∧ d ≤ daysInMonth y m then some ⟨y, m, d⟩ else none

/-- Numeric `a/b/<year>` triple: with `dayfirst` the first number is read as
the day and the second as the month, and vice versa without; when the
preferred reading is not a valid calendar date the other one is tried
(`dateutil` is lenient this way, e.g. `01/15/2020` parses as Jan 15 even
with `dayfirst=True` because 15 cannot be a month). -/
def dmyFromNumbers (dayfirst : Bool) (a b : Nat) (yy : Int) : Option PyDate :=
  if dayfirst then
    match mkValidDate yy b a with
    | some d => some d
    | none => mkValidDate yy a b
  else
    match mkValidDate yy a b with
    | some d => some d
    | none => mkValidDate yy b a

/-- Modelled from the spec: the external `dateutil.parser.parse` call used by
`parse_date_flexible` is not part of this repository.  The spec (and the
function's docstring) documents the behaviour relied upon: month-year
combinations (`"jan 2020"`, `"2020-01"`), generic calendar formats — ISO
`"2020-01-15"`, numeric `"15/01/2020"` / `"01/15/2020"` with the `dayfirst`
preference deciding the ambiguous readings, month-name forms
`"jan 15, 2020"` / `"15 jan 2020"` — and a missing day filled in from the
default (today's day).  Input is already lower-cased and stripped by the
caller; commas are separators, so tokens are stripped of them.  Every other
shape returns `none` (the parser raises). -/
def dateutil_parse (today : PyDate) (dayfirst : Bool) (s : Str) : Option PyDate :=
  match (pySplitWs s).map (pyStripChars [',']) with
  | [w, y] =>
      match monthIndex w, parseYear4 y with
      | some m, some yy => mkValidDate yy m today.d
      | _, _ => none
  | [a, b, y] =>
      match parseYear4 y with
      | none => none
      | some yy =>
          match monthIndex a, parseNat2 b with
          | some m, some d => mkValidDate yy m d
          | _, _ =>
              match parseNat2 a, monthIndex b with
              | some d, some m => mkValidDate yy m d
              | _, _ => none
  | [t] =>
      match pySplitOn (str "-") t with
      | [ys, ms] =>
          match parseYear4 ys, parseNat2 ms with
          | some yy, some m => mkValidDate yy m today.d
          | _, _ => none
      | [ys, ms, dd] =>
          match parseYear4 ys, parseNat2 ms, parseNat2 dd with
          | some yy, some m, some d => mkValidDate yy m d
          | _, _, _ => none
      | _ =>
          match pySplitOn (str "/") t with
          | [a, b, ys] =>
              match parseNat2 a, parseNat2 b, parseYear4 ys with
              | some na, some nb, some yy => dmyFromNumbers dayfirst na nb yy
              | _, _, _ => none
          | [ms, ys] =>
              match parseNat2 ms, parseYear4 ys with
              | some m, some yy => mkValidDate yy m today.d
              | _, _ => none
          | _ => none
  | _ => none

/-- `search_utils.parse_date_flexible` (lines 142–196), parameterised by the
frozen `today`.  The source tries `dateutil` up to three times: once behind a
month-year regex pre-check (word, optional hyphen or slash, 4-digit year)
with the default `dayfirst=False`, then with `dayfirst=True`, then with
`dayfirst=False`.
Strings matching that pre-check carry no day token, so `dayfirst` cannot
affect them and the pre-checked call collapses into the two flagged attempts
below. -/
def parse_date_flexible (today : PyDate) (date_str : Str) : Option PyDate :=
  if date_str = [] then none
  else
    let ds := pyLower (pyStrip date_str)
    if ds = str "present" ∨ ds = str "current" ∨ ds = str "now" ∨ ds = str "today" ∨
        ds = str "ongoing" ∨ ds = str "till date" then
      some today
    else if ds.length = 4 ∧ ds.all Char.isDigit then
      some ⟨(natOfDigits ds : Int), 1, 1⟩
    else
      match dateutil_parse today true ds with
      | some d => some d
      | none => dateutil_parse today false ds

/-- Lift of `parse_date_flexible` to optional input (`start_str` / `end_str`
may still be Python `None` when no separator and no year was found). -/
def parse_date_flexibleO (today : PyDate) : Option Str → Option PyDate
  | none => none
  | some s => parse_date_flexible today s

/-- `re.findall(r'\d{4}', s)`: maximal-munch, non-overlapping scan. -/
def findall4digits : Str → List Str
  | a :: b :: c :: d :: rest =>
      if a.isDigit ∧ b.isDigit ∧ c.isDigit ∧ d.isDigit then
        [a, b, c, d] :: findall4digits rest
      else findall4digits (b :: c :: d :: rest)
  | _ => []

/-- The separator list of `parse_duration_to_months` (line 243). -/
def durationSeparators : List Str :=
  [str " - ", str " to ", str " – ", str "-", str "–", str "→"]

/-- First separator occurring in `s`, if any (the `for sep in separators`
loop; when a separator occurs, `split` always yields at least two parts). -/
def firstSeparator (s : Str) : Option Str :=
  durationSeparators.find? (fun sep => strContains s sep)

/-- `search_utils.parse_duration_to_months` (lines 228–278), parameterised by
the frozen `today`.  The separator split runs first; the `if not start_str:`
fallback then fires when `start_str` is still `None` (no separator) **or** is
the empty string (a falsy split piece, e.g. `"-2020"` splits to
`['', '2020']`), re-extracting 4-digit years from the whole string; when no
year is found either, `start_str`/`end_str` keep their previous values. -/
def parse_duration_to_months (today : PyDate) (duration : Str) : Int :=
  if duration = [] then 0
  else
    let dur := pyStrip duration
    let sepSplit : Option Str × Option Str :=
      match firstSeparator dur with
      | some sep =>
          let parts := pySplitOn sep dur
          (some (pyStrip (parts.headD [])), some (pyStrip (parts.getLastD [])))
      | none => (none, none)
    let startEnd : Option Str × Option Str :=
      if (sepSplit.1.getD []).isEmpty then
        match findall4digits dur with
        | [] => sepSplit
        | [y] => (some y, some (str "present"))
        | y :: rest => (some y, some (rest.getLastD y))
      else sepSplit
    let start_date := parse_date_flexibleO today startEnd.1
    let end_date := parse_date_flexibleO today startEnd.2
    match start_date with
    | none => 0
    | some sd =>
        let ed := end_date.getD today
        max 0 (monthsBetween ed sd)

/-! ## Name normalisation and matching (`search_utils.py`, `main.py`) -/

/-- `search_utils.HONORIFICS` (lines 784–798). -/
def HONORIFICS : List Str :=
  [str "mr", str "mr.", str "mrs", str "mrs.", str "ms", str "ms.", str "miss",
   str "dr", str "dr.", str "prof", str "prof.", str "professor", str "rev",
   str "rev.", str "sir", str "madam", str "hon", str "hon.", str "honorable",
   str "judge", str "capt", str "capt.", str "captain", str "col", str "col.",
   str "colonel", str "gen", str "gen.", str "general", str "lt", str "lt.",
   str "sgt", str "sgt.", str "major",
   str "jr", str "jr.", str "junior", str "sr", str "sr.", str "senior",
   str "i", str "ii", str "iii", str "iv", str "v",
   str "phd", str "ph.d", str "ph.d.", str "md", str "m.d", str "m.d.",
   str "esq", str "esq.", str "esquire",
   str "mba", str "m.b.a", str "cpa", str "c.p.a"]

/-- `search_utils.strip_honorifics` (lines 801–821). -/
def strip_honorifics (name : Str) : Str :=
  if name = [] then []
  else
    strJoin (str " ")
      ((pySplitWs name).filter
        (fun w => ¬ HONORIFICS.contains (pyStripChars ['.', ','] (pyLower w))))

/-- `search_utils.UNICODE_TO_ASCII` (lines 645–660), as a character map. -/
def unicodeToAscii (c : Char) : Option Str :=
  if c = 'á' ∨ c = 'à' ∨ c = 'â' ∨ c = 'ä' ∨ c = 'ã' ∨ c = 'å' ∨ c = 'ā' then some (str "a")
  else if c = 'é' ∨ c = 'è' ∨ c = 'ê' ∨ c = 'ë' ∨ c = 'ē' then some (str "e")
  else if c = 'í' ∨ c = 'ì' ∨ c = 'î' ∨ c = 'ï' ∨ c = 'ī' then some (str "i")
  else if c = 'ó' ∨ c = 'ò' ∨ c = 'ô' ∨ c = 'ö' ∨ c = 'õ' ∨ c = 'ō' ∨ c = 'ø' then some (str "o")
  else if c = 'ú' ∨ c = 'ù' ∨ c = 'û' ∨ c = 'ü' ∨ c = 'ū' then some (str "u")
  else if c = 'ñ' ∨ c = 'ń' then some (str "n")
  else if c = 'ç' ∨ c = 'ć' then some (str "c")
  else if c = 'ß' then some (str "ss")
  else if c = 'æ' then some (str "ae")
  else if c = 'œ' then some (str "oe")
  else if c = 'ý' ∨ c = 'ÿ' then some (str "y")
  else if c = 'ž' ∨ c = 'ź' then some (str "z")
  else if c = 'š' ∨ c = 'ś' then some (str "s")
  else if c = 'ł' then some (str "l")
  else if c = 'đ' then some (str "d")
  else none

/-- `search_utils.normalize_unicode` (lines 663–690): lower-case, then apply
the explicit diacritics table.  The final `unicodedata` NFD fallback only
strips combining marks that survive the table; on the (pre-composed)
character domain this embedding manipulates it is the identity, and it is
modelled as such. -/
def normalize_unicode (text : Str) : Str :=
  if text = [] then []
  else (pyLower text).flatMap (fun c => (unicodeToAscii c).getD [c])

/-- `main.normalize_name` (lines 2048–2066): strip honorifics, fold Unicode,
lower-case and trim, then collapse `[-_]+` and `\s+` runs to single
spaces. -/
def normalize_name (name : Str) : Str :=
  if name = [] then []
  else
    let n1 := strip_honorifics name
    let n2 := normalize_unicode n1
    let n3 := pyStrip (pyLower n2)
    let n4 := collapseRuns (fun c => c = '-' || c = '_') ' ' n3
    collapseRuns isPyWs ' ' n4

/-- The consonant-class table of `search_utils.soundex` (lines 718–725).
The keys are the *upper-case* letters, exactly as in the source; since
`soundex` lower-cases its input just before the lookups (via
`normalize_unicode`), the lookups always miss — this faithful embedding
preserves that behaviour. -/
def soundex_map (c : Char) : Option Char :=
  if c = 'B' ∨ c = 'F' ∨ c = 'P' ∨ c = 'V' then some '1'
  else if c = 'C' ∨ c = 'G' ∨ c = 'J' ∨ c = 'K' ∨ c = 'Q' ∨ c = 'S' ∨ c = 'X' ∨ c = 'Z' then
    some '2'
  else if c = 'D' ∨ c = 'T' then some '3'
  else if c = 'L' then some '4'
  else if c = 'M' ∨ c = 'N' then some '5'
  else if c = 'R' then some '6'
  else none

/-- The encoding loop of `soundex` (lines 734–741), with its early break
once four characters are accumulated. -/
def soundexGo (prev : Char) (acc : Str) : Str → Str
  | [] => acc
  | c :: rest =>
      let code := (soundex_map c).getD '0'
      let acc' := if code ≠ '0' ∧ code ≠ prev then acc ++ [code] else acc
      if 4 ≤ acc'.length then acc' else soundexGo code acc' rest

/-- `search_utils.soundex` (lines 698–746). -/
def soundex (name : Str) : Str :=
  if name = [] then []
  else
    let n := normalize_unicode (pyStrip (pyUpper name))
    match n with
    | [] => []
    | first :: rest =>
        let prev := (soundex_map first).getD '0'
        let encoded := soundexGo prev [first] rest
        (encoded ++ str "000").take 4

/-- `search_utils.names_sound_similar` (lines 749–776).  The comparison
`matches >= len(words1) * 0.5` is exact in floating point for these
magnitudes and is stated as `2 * matches ≥ len`.  (The source would raise an
`IndexError` on a non-empty all-whitespace argument; its call site inside
`calculate_match_score` never reaches this function with one, and the model
returns `false` there.) -/
def names_sound_similar (name1 name2 : Str) : Bool :=
  if name1 = [] ∨ name2 = [] then false
  else
    let words1 := pySplitWs name1
    let words2 := pySplitWs name2
    if words1.length ≠ words2.length then
      match words1, words2 with
      | w1 :: _, w2 :: _ =>
          soundex w1 = soundex w2 ∨
            soundex (words1.getLastD w1) = soundex (words2.getLastD w2)
      | _, _ => false
    else
      2 * (List.zip words1 words2).countP (fun p => soundex p.1 = soundex p.2) ≥
        words1.length

/-- Read view of a stored employee (`models.Employee` restricted to the
fields the matching code reads; optional columns are modelled as possibly
empty strings, matching Python truthiness). -/
structure Employee where
  id : Nat
  name : Str
  email : Str
  position : Str
  technical_skills : Str
  deriving DecidableEq, Repr

/-- The match dict built by `calculate_match_score` / `find_all_matches`. -/
structure MatchResult where
  employee : Employee
  score : Nat
  match_type : Str
  match_reason : Str
  deriving DecidableEq, Repr

/-- `set(search_parts) == set(name_parts)` (line 2147): mutual containment
of the word lists. -/
def sameWordSet (ps qs : List Str) : Bool :=
  ps.all (fun p => qs.contains p) && qs.all (fun q => ps.contains q)

/-- The email block of `calculate_match_score` (lines 2194–2201), reached
when no name rule fires (or the employee has no name). -/
def email_match_fallback (search_term : Str) (employee : Employee) : MatchResult :=
  let search_norm := normalize_name search_term
  let base : MatchResult := ⟨employee, 0, str "none", str ""⟩
  if employee.email ≠ [] then
    let email_local := pyLower ((pySplitOn (str "@") employee.email).headD [])
    let sNoSp := search_norm.filter (· ≠ ' ')
    if strContains email_local sNoSp || strContains sNoSp email_local then
      ⟨employee, 30, str "email", str "Email match (" ++ employee.email ++ str ")"⟩
    else base
  else base

/-- `main.calculate_match_score` (lines 2101–2203).  The `match_type`
argument of the source is never read; the `get_name_variations` sets the
source computes at entry are likewise never read by the scoring logic and
are omitted. -/
def calculate_match_score (search_term : Str) (employee : Employee) : MatchResult :=
  let search_norm := normalize_name search_term
  let emailCheck : MatchResult := email_match_fallback search_term employee
  if employee.name ≠ [] then
    let name_norm := normalize_name employee.name
    if search_norm = name_norm then
      ⟨employee, 100, str "exact", str "Exact name match"⟩
    else if pyLower search_term = pyLower employee.name then
      ⟨employee, 95, str "case_variant", str "Case variation match"⟩
    else if search_norm.filter (· ≠ ' ') = name_norm.filter (· ≠ ' ') then
      ⟨employee, 90, str "space_variant", str "Space/hyphen variation"⟩
    else
      let search_parts := pySplitWs search_norm
      let name_parts := pySplitWs name_norm
      if 2 ≤ search_parts.length ∧ 2 ≤ name_parts.length ∧
          sameWordSet search_parts name_parts then
        ⟨employee, 85, str "reversed", str "Reversed name order"⟩
      else if strContains name_norm search_norm then
        ⟨employee, 70, str "contains", str "Name contains \"" ++ search_term ++ str "\""⟩
      else if strContains search_norm name_norm then
        ⟨employee, 65, str "contained", str "Search contains name"⟩
      else
        match search_parts.find? (fun part => 2 < part.length ∧ strContains name_norm part) with
        | some part =>
            ⟨employee, 50, str "partial", str "Partial match on \"" ++ part ++ str "\""⟩
        | none =>
            if name_parts.any (fun np => 3 < np.length ∧
                search_parts.any (fun sp => 2 < sp.length ∧
                  (strContains np sp || sp.isPrefixOf np))) then
              ⟨employee, 40, str "nickname", str "Nickname/substring match"⟩
            else if names_sound_similar search_term employee.name then
              ⟨employee, 35, str "phonetic",
                str "Phonetically similar (sounds like \"" ++ employee.name ++ str "\")"⟩
            else emailCheck
  else emailCheck

/-- Descending-score preorder used to sort match lists (`matches.sort(key=
lambda x: x['score'], reverse=True)`); insertion sort under this relation is
stable, exactly like Python's sort with `reverse=True`. -/
def matchScoreGE (a b : MatchResult) : Prop := b.score ≤ a.score

instance : DecidableRel matchScoreGE := fun a b => Nat.decLe b.score a.score

instance : IsTotal MatchResult matchScoreGE :=
  ⟨fun a b => (le_total b.score a.score).imp id id⟩

instance : IsTrans MatchResult matchScoreGE :=
  ⟨fun _ _ _ h1 h2 => le_trans h2 h1⟩

/-- `main.find_all_matches` (lines 2205–2261), with the database query
replaced by an explicit catalog snapshot. -/
def find_all_matches (employees : List Employee) (search_term : Str)
    (match_type : Str) : List MatchResult :=
  let results := employees.map (fun emp =>
    if match_type = str "name" then calculate_match_score search_term emp
    else if match_type = str "position" then
      let base : MatchResult := ⟨emp, 0, str "none", str ""⟩
      if emp.position ≠ [] then
        let pos_norm := normalize_name emp.position
        let search_norm := normalize_name search_term
        if strContains pos_norm search_norm then
          ⟨emp, 80, str "position", str "Position: " ++ emp.position⟩
        else if (pySplitWs search_norm).any
            (fun part => 2 < part.length ∧ strContains pos_norm part) then
          ⟨emp, 60, str "position_partial", str "Position contains: " ++ emp.position⟩
        else base
      else base
    else if match_type = str "skill" then
      let base : MatchResult := ⟨emp, 0, str "none", str ""⟩
      if emp.technical_skills ≠ [] then
        let skills_lower := pyLower emp.technical_skills
        let search_norm := normalize_name search_term
        if strContains skills_lower search_norm then
          ⟨emp, 80, str "skill_exact", str "Has skill: " ++ search_term⟩
        else if (pySplitOn (str ",") skills_lower).any
            (fun skill => strContains (pyLower skill) search_norm ||
              strContains search_norm (pyLower skill)) then
          ⟨emp, 60, str "skill_variant", str "Has related skill"⟩
        else base
      else base
    else calculate_match_score search_term emp)
  let ms := results.filter (fun r => 0 < r.score)
  ms.insertionSort matchScoreGE

/-- The `emp_name` branch of `main.resolve_employee_with_duplicates`
(lines 2307–2325).  The `emp_id` branch performs exact id lookups and is not
part of the name-resolution behaviour under test; the constant
`is_id_ambiguous` component (always `False` on this branch) is dropped. -/
def resolve_employee_with_duplicates_name (employees : List Employee)
    (emp_name : Str) : Option Employee × List MatchResult :=
  let ms := find_all_matches employees emp_name (str "name")
  match ms with
  | [] => (none, [])
  | [m] => if 70 ≤ m.score then (some m.employee, [m]) else (none, [m])
  | _ => (none, ms)

/-! ## Compound query parsing (`search_utils.parse_compound_query`) -/

/-- Python's `\w` character class (ASCII part; the queries the code handles
are ASCII). -/
def isWordChar (c : Char) : Bool := c.isAlphanum || c = '_'

/-- One left-to-right, non-overlapping pass of
`re.findall(r'\bMARKER\s+(\w+)', s)` together with
`re.sub(r'\bMARKER\s+(\w+)', '', s)`: returns the captured words and the
string with every match deleted.  `prev` is the character before the current
scan position (for the `\b` test), `fuel` starts at `length + 1`. -/
def scanNotGo (marker : Str) : Nat → Option Char → Str → List Str × Str
  | 0, _, s => ([], s)
  | _ + 1, _, [] => ([], [])
  | fuel + 1, prev, s@(c :: rest) =>
      let boundaryOk : Bool := match prev with
        | none => true
        | some p => ! isWordChar p
      if boundaryOk ∧ marker.isPrefixOf s then
        let after := s.drop marker.length
        let wsRun := after.takeWhile isPyWs
        let afterWs := after.dropWhile isPyWs
        let word := afterWs.takeWhile isWordChar
        if wsRun ≠ [] ∧ word ≠ [] then
          let restAfter := afterWs.drop word.length
          let res := scanNotGo marker fuel (word.getLast?) restAfter
          (word :: res.1, res.2)
        else
          let res := scanNotGo marker fuel (some c) rest
          (res.1, c :: res.2)
      else
        let res := scanNotGo marker fuel (some c) rest
        (res.1, c :: res.2)

def scanNot (marker : Str) (s : Str) : List Str × Str :=
  scanNotGo marker (s.length + 1) none s

/-- `CompoundQuery`: the dict built by `parse_compound_query`. -/
structure CompoundQuery where
  must_have : List Str
  should_have : List Str
  must_not : List Str
  deriving DecidableEq, Repr

/-- The four NOT-markers of `parse_compound_query` (lines 1111–1116). -/
def NOT_MARKERS : List Str :=
  [str "not", str "except", str "excluding", str "without"]

/-- The stop-word set of `parse_compound_query` (line 1142). -/
def COMPOUND_STOPWORDS : List Str :=
  [str "the", str "and", str "for", str "with", str "find", str "show",
   str "list", str "get", str "employees", str "employee"]

/-- `search_utils.parse_compound_query` (lines 1093–1151).  The final
`list(set(...))` de-duplication has unspecified order in Python (hash-based);
it is modelled as keeping the first occurrence of each term. -/
def parse_compound_query (query : Str) : CompoundQuery :=
  let q0 := pyLower query
  let extracted := NOT_MARKERS.foldl
    (fun (acc : List Str × Str) marker =>
      let res := scanNot marker acc.2
      (acc.1 ++ res.1, res.2))
    ([], q0)
  let must_not := extracted.1
  let q1 := extracted.2
  let termsOf : Str → List Str := fun part =>
    ((pySplitWs part).map pyStrip).filter (fun t => 2 < t.length)
  let result : CompoundQuery :=
    if strContains q1 (str " and ") then
      ⟨(pySplitOn (str " and ") q1).flatMap termsOf, [], must_not⟩
    else if strContains q1 (str " or ") then
      ⟨[], (pySplitOn (str " or ") q1).flatMap termsOf, must_not⟩
    else
      ⟨(termsOf q1).filter (fun t => ¬ COMPOUND_STOPWORDS.contains t), [], must_not⟩
  ⟨result.must_have.eraseDups, result.should_have.eraseDups, result.must_not.eraseDups⟩

/-! ## Python values (`validators.py`, `extraction_utils.py` operate on
untyped dict/list/str data) -/

/-- The Python values flowing through the extraction pipeline: `None`,
strings, ints, bools, lists and dicts (JSON floats are outside the model;
the mini JSON parser rejects them, which the claims never exercise). -/
inductive PyVal where
  | pnone
  | pstr (s : Str)
  | pint (n : Int)
  | pbool (b : Bool)
  | plist (xs : List PyVal)
  | pdict (kvs : List (Str × PyVal))

open PyVal

mutual

/-- Boolean structural equality on `PyVal` (Python `==` on these values). -/
def pvBeq : PyVal → PyVal → Bool
  | pnone, pnone => true
  | pstr a, pstr b => a = b
  | pint a, pint b => a = b
  | pbool a, pbool b => a = b
  | plist a, plist b => pvBeqL a b
  | pdict a, pdict b => pvBeqD a b
  | _, _ => false

def pvBeqL : List PyVal → List PyVal → Bool
  | [], [] => true
  | a :: as', b :: bs => pvBeq a b && pvBeqL as' bs
  | _, _ => false

def pvBeqD : List (Str × PyVal) → List (Str × PyVal) → Bool
  | [], [] => true
  | (k1, v1) :: as', (k2, v2) :: bs => k1 = k2 && pvBeq v1 v2 && pvBeqD as' bs
  | _, _ => false

end

mutual

/-- Structural size measure used only to drive the induction below. -/
def pvSize : PyVal → Nat
  | pnone => 1
  | pstr _ => 1
  | pint _ => 1
  | pbool _ => 1
  | plist xs => 1 + pvSizeL xs
  | pdict kvs => 1 + pvSizeD kvs

def pvSizeL : List PyVal → Nat
  | [] => 0
  | v :: rest => pvSize v + pvSizeL rest

def pvSizeD : List (Str × PyVal) → Nat
  | [] => 0
  | (_, v) :: rest => pvSize v + pvSizeD rest

end

theorem pvSize_pos (a : PyVal) : 0 < pvSize a := by
  cases a <;> simp [pvSize]

theorem pvBeq_iff_bounded :
    ∀ n, ∀ a b : PyVal, pvSize a ≤ n → (pvBeq a b = true ↔ a = b) := by
  intro n
  induction n with
  | zero =>
      intro a b h
      exact absurd h (by have := pvSize_pos a; omega)
  | succ n ih =>
      have ihL : ∀ xs ys : List PyVal, pvSizeL xs ≤ n → (pvBeqL xs ys = true ↔ xs = ys) := by
        intro xs
        induction xs with
        | nil => intro ys _; cases ys <;> simp [pvBeqL]
        | cons x xs ihxs =>
            intro ys hsz
            cases ys with
            | nil => simp [pvBeqL]
            | cons y ys =>
                have hx : pvSize x ≤ n := by
                  have := pvSize_pos x
                  simp [pvSizeL] at hsz
                  omega
                have hxs : pvSizeL xs ≤ n := by
                  have := pvSize_pos x
                  simp [pvSizeL] at hsz
                  omega
                simp [pvBeqL, Bool.and_eq_true, ih x y hx, ihxs ys hxs]
      have ihD : ∀ xs ys : List (Str × PyVal), pvSizeD xs ≤ n →
          (pvBeqD xs ys = true ↔ xs = ys) := by
        intro xs
        induction xs with
        | nil => intro ys _; cases ys <;> simp [pvBeqD]
        | cons x xs ihxs =>
            intro ys hsz
            obtain ⟨k1, v1⟩ := x
            cases ys with
            | nil => simp [pvBeqD]
            | cons y ys =>
                obtain ⟨k2, v2⟩ := y
                have hv : pvSize v1 ≤ n := by
                  simp [pvSizeD] at hsz
                  omega
                have hxs : pvSizeD xs ≤ n := by
                  have := pvSize_pos v1
                  simp [pvSizeD] at hsz
                  omega
                simp only [pvBeqD, Bool.and_eq_true, decide_eq_true_eq,
                  ih v1 v2 hv, ihxs ys hxs, List.cons.injEq, Prod.mk.injEq]
      intro a b h
      cases a with
      | pnone => cases b <;> simp [pvBeq]
      | pstr s => cases b <;> simp [pvBeq, decide_eq_true_eq]
      | pint m => cases b <;> simp [pvBeq, decide_eq_true_eq]
      | pbool v => cases b <;> simp [pvBeq, decide_eq_true_eq]
      | plist xs =>
          have hbound : pvSizeL xs ≤ n := by
            simp [pvSize] at h
            omega
          cases b with
          | pnone => simp [pvBeq]
          | pstr _ => simp [pvBeq]
          | pint _ => simp [pvBeq]
          | pbool _ => simp [pvBeq]
          | plist ys => simpa [pvBeq] using ihL xs ys hbound
          | pdict _ => simp [pvBeq]
      | pdict kvs =>
          have hbound : pvSizeD kvs ≤ n := by
            simp [pvSize] at h
            omega
          cases b with
          | pnone => simp [pvBeq]
          | pstr _ => simp [pvBeq]
          | pint _ => simp [pvBeq]
          | pbool _ => simp [pvBeq]
          | plist _ => simp [pvBeq]
          | pdict kvs' => simpa [pvBeq] using ihD kvs kvs' hbound

theorem pvBeq_iff (a b : PyVal) : pvBeq a b = true ↔ a = b :=
  pvBeq_iff_bounded (pvSize a) a b le_rfl

instance : DecidableEq PyVal := fun a b => decidable_of_iff _ (pvBeq_iff a b)

/-- Python truthiness of the modelled values. -/
def pyTruthy : PyVal → Bool
  | pnone => false
  | pstr s => ! s.isEmpty
  | pint n => n ≠ 0
  | pbool b => b
  | plist xs => ! xs.isEmpty
  | pdict kvs => ! kvs.isEmpty

/-- Decimal rendering of an integer (Python `str(int)`). -/
def intRepr (n : Int) : Str :=
  if n < 0 then '-' :: Nat.toDigits 10 n.natAbs else Nat.toDigits 10 n.natAbs

mutual

/-- Python `repr` (as used by `str` on containers).  String quoting uses
single quotes and no escaping — the claims never stringify strings
containing quotes. -/
def pyRepr : PyVal → Str
  | pnone => str "None"
  | pstr s => '\'' :: s ++ [Char.ofNat 0x27]
  | pint n => intRepr n
  | pbool true => str "True"
  | pbool false => str "False"
  | plist xs => '[' :: strJoin (str ", ") (pyReprL xs) ++ [']']
  | pdict kvs => Char.ofNat 0x7b :: strJoin (str ", ") (pyReprD kvs) ++ [Char.ofNat 0x7d]

def pyReprL : List PyVal → List Str
  | [] => []
  | v :: rest => pyRepr v :: pyReprL rest

def pyReprD : List (Str × PyVal) → List Str
  | [] => []
  | (k, v) :: rest =>
      ('\'' :: k ++ [Char.ofNat 0x27] ++ str ": " ++ pyRepr v) :: pyReprD rest

end

/-- Python `str(value)`. -/
def pyStrOf : PyVal → Str
  | pstr s => s
  | v => pyRepr v

mutual

/-- `json.dumps(value)` — used only as a structural-equality key when
de-duplicating merged list items; double-quoted strings, no escaping. -/
def pyJsonDumps : PyVal → Str
  | pnone => str "null"
  | pstr s => '"' :: s ++ ['"']
  | pint n => intRepr n
  | pbool true => str "true"
  | pbool false => str "false"
  | plist xs => '[' :: strJoin (str ", ") (pyJsonDumpsL xs) ++ [']']
  | pdict kvs => Char.ofNat 0x7b :: strJoin (str ", ") (pyJsonDumpsD kvs) ++ [Char.ofNat 0x7d]

def pyJsonDumpsL : List PyVal → List Str
  | [] => []
  | v :: rest => pyJsonDumps v :: pyJsonDumpsL rest

def pyJsonDumpsD : List (Str × PyVal) → List Str
  | [] => []
  | (k, v) :: rest =>
      ('"' :: k ++ ['"'] ++ str ": " ++ pyJsonDumps v) :: pyJsonDumpsD rest

end

/-- The null-marker list `['null', 'None', '', 'N/A']` used throughout
`validators.py` / `extraction_utils.py`; `value in [...]` is equality
against those strings, so only string values can test positive. -/
def isSentinel : PyVal → Bool
  | pstr s =>
      s = str "null" ∨ s = str "None" ∨ s = [] ∨ s = str "N/A"
  | _ => false

/-- Python `dict.get(k)` on an association list (keys are unique, as in a
Python dict). -/
def alistGet (d : List (Str × PyVal)) (k : Str) : Option PyVal :=
  (d.find? (fun kv => kv.1 = k)).map (·.2)

/-- Python `d[k] = v` for a key already present: replace the first binding. -/
def alistSet (d : List (Str × PyVal)) (k : Str) (v : PyVal) : List (Str × PyVal) :=
  d.map (fun kv => if kv.1 = k then (kv.1, v) else kv)

/-! ### Mini JSON parser (Python `json.loads`, used by
`validate_array_field` on string input) -/

def jsonSkipWs (s : Str) : Str :=
  s.dropWhile (fun c => c = ' ' || c = '\t' || c = '\n' || c = '\x0d')

/-- String-body scanner: consumes until the closing quote, handling the
standard escapes (`\uXXXX` handled for hex digits). -/
def jsonStringBody : Nat → Str → Option (Str × Str)
  | 0, _ => none
  | _ + 1, [] => none
  | fuel + 1, c :: rest =>
      if c = '"' then some ([], rest)
      else if c = '\\' then
        match rest with
        | [] => none
        | e :: rest' =>
            let decoded : Option (Char × Str) :=
              if e = '"' then some ('"', rest')
              else if e = '\\' then some ('\\', rest')
              else if e = '/' then some ('/', rest')
              else if e = 'n' then some ('\n', rest')
              else if e = 't' then some ('\t', rest')
              else if e = 'r' then some ('\x0d', rest')
              else if e = 'b' then some ('\x08', rest')
              else if e = 'f' then some ('\x0c', rest')
              else if e = 'u' then
                match rest' with
                | h1 :: h2 :: h3 :: h4 :: rest'' =>
                    let hexVal : Char → Option Nat := fun h =>
                      if h.isDigit then some (h.toNat - '0'.toNat)
                      else if 'a' ≤ h ∧ h ≤ 'f' then some (h.toNat - 'a'.toNat + 10)
                      else if 'A' ≤ h ∧ h ≤ 'F' then some (h.toNat - 'A'.toNat + 10)
                      else none
                    match hexVal h1, hexVal h2, hexVal h3, hexVal h4 with
                    | some a, some b, some cc, some d =>
                        some (Char.ofNat (((a * 16 + b) * 16 + cc) * 16 + d), rest'')
                    | _, _, _, _ => none
                | _ => none
              else none
            match decoded with
            | some (ch, r) => (jsonStringBody fuel r).map (fun p => (ch :: p.1, p.2))
            | none => none
      else (jsonStringBody fuel rest).map (fun p => (c :: p.1, p.2))

/-- Integer literals (floats/exponents are outside the model and fail,
behaving like a `JSONDecodeError` for the caller). -/
def jsonNumber (s : Str) : Option (PyVal × Str) :=
  let (neg, t) := match s with
    | '-' :: t => (true, t)
    | t => (false, t)
  let digits := t.takeWhile Char.isDigit
  let rest := t.drop digits.length
  if digits = [] then none
  else
    match rest with
    | c :: _ =>
        if c = '.' ∨ c = 'e' ∨ c = 'E' then none
        else some (pint (if neg then -(natOfDigits digits : Int) else natOfDigits digits), rest)
    | [] => some (pint (if neg then -(natOfDigits digits : Int) else natOfDigits digits), [])

mutual

def jsonValue : Nat → Str → Option (PyVal × Str)
  | 0, _ => none
  | fuel + 1, s =>
      let t := jsonSkipWs s
      if (str "null").isPrefixOf t then some (pnone, t.drop 4)
      else if (str "true").isPrefixOf t then some (pbool true, t.drop 4)
      else if (str "false").isPrefixOf t then some (pbool false, t.drop 5)
      else
        match t with
        | [] => none
        | c :: rest =>
            if c = '"' then
              (jsonStringBody (rest.length + 1) rest).map (fun p => (pstr p.1, p.2))
            else if c = '[' then
              match jsonSkipWs rest with
              | ']' :: r => some (plist [], r)
              | t' => (jsonArrayItems fuel t').map (fun p => (plist p.1, p.2))
            else if c = Char.ofNat 0x7b then
              match jsonSkipWs rest with
              | r₀ :: r =>
                  if r₀ = Char.ofNat 0x7d then some (pdict [], r)
                  else (jsonObjectItems fuel (r₀ :: r)).map (fun p => (pdict p.1, p.2))
              | [] => none
            else jsonNumber t

def jsonArrayItems : Nat → Str → Option (List PyVal × Str)
  | 0, _ => none
  | fuel + 1, s => do
      let (v, rest) ← jsonValue fuel s
      match jsonSkipWs rest with
      | ']' :: r => some ([v], r)
      | ',' :: r => (jsonArrayItems fuel r).map (fun p => (v :: p.1, p.2))
      | _ => none

def jsonObjectItems : Nat → Str → Option (List (Str × PyVal) × Str)
  | 0, _ => none
  | fuel + 1, s =>
      match jsonSkipWs s with
      | '"' :: rest => do
          let (key, r₁) ← jsonStringBody (rest.length + 1) rest
          match jsonSkipWs r₁ with
          | ':' :: r₂ => do
              let (v, r₃) ← jsonValue fuel r₂
              match jsonSkipWs r₃ with
              | c :: r₄ =>
                  if c = Char.ofNat 0x7d then some ([(key, v)], r₄)
                  else if c = ',' then
                    (jsonObjectItems fuel r₄).map (fun p => ((key, v) :: p.1, p.2))
                  else none
              | [] => none
          | _ => none
      | _ => none

end

/-- `json.loads` (restricted as documented above). -/
def jsonLoads (s : Str) : Option PyVal :=
  match jsonValue (s.length + 1) s with
  | some (v, rest) => if jsonSkipWs rest = [] then some v else none
  | none => none

/-! ## Exact rationals for Python float arithmetic

Mathlib's `ℚ` normalises through `Nat.gcd`, which the kernel cannot unfold,
so concrete evaluations would not reduce under `decide`.  The float values
this code manipulates are modelled instead as unnormalised fractions with a
positive denominator; equality and order are by cross-multiplication, which
reduces.  All float expressions in the source are exact at these values, so
the rational semantics agrees with IEEE evaluation on every comparison the
code performs. -/

structure PyFloat where
  num : Int
  den : Int
  deriving DecidableEq, Repr

/-- Fraction literal. -/
def fl (n d : Int) : PyFloat := ⟨n, d⟩

def qZero : PyFloat := ⟨0, 1⟩

def qOne : PyFloat := ⟨1, 1⟩

def qAdd (a b : PyFloat) : PyFloat := ⟨a.num * b.den + b.num * a.den, a.den * b.den⟩

/-- Division, keeping the denominator positive for a positive divisor (the
only kind the code produces). -/
def qDiv (a b : PyFloat) : PyFloat :=
  if b.num < 0 then ⟨-(a.num * b.den), -(a.den * b.num)⟩
  else ⟨a.num * b.den, a.den * b.num⟩

/-- `a ≤ b` for positive-denominator fractions. -/
def qLe (a b : PyFloat) : Bool := a.num * b.den ≤ b.num * a.den

/-- `a < b` for positive-denominator fractions. -/
def qLt (a b : PyFloat) : Bool := a.num * b.den < b.num * a.den

/-- Value equality of fractions. -/
def qEq (a b : PyFloat) : Bool := a.num * b.den = b.num * a.den

/-- Python `max(a, b)` (returns the first argument on ties). -/
def pyMax (a b : PyFloat) : PyFloat := if qLt a b then b else a

/-- Python `min(a, b)` (returns the first argument on ties). -/
def pyMin (a b : PyFloat) : PyFloat := if qLt b a then b else a

/-! ## Field validators (`validators.py`) -/

/-- `validators.ValidationResult` (lines 83–90).  `confidence` defaults to
`1.0` in the source dataclass — including on invalid results that do not set
it explicitly. -/
structure ValidationResult where
  is_valid : Bool
  value : PyVal
  errors : List Str := []
  warnings : List Str := []
  confidence : PyFloat := qOne
  deriving DecidableEq

/-- Decimal rendering of a `Nat` (for embedded f-string messages). -/
def natStr (n : Nat) : Str := Nat.toDigits 10 n

/-- `validators.INPUT_LIMITS` (lines 33–42). -/
def INPUT_LIMITS_get (key : Str) : Option Nat :=
  if key = str "resume_text_min" then some 50
  else if key = str "resume_text_max" then some 50000
  else if key = str "name_max" then some 100
  else if key = str "email_max" then some 254
  else if key = str "phone_max" then some 30
  else if key = str "url_max" then some 2048
  else if key = str "text_field_max" then some 5000
  else if key = str "array_max_items" then some 50
  else none

/-- `validators.validate_input_length` (lines 140–176).  Note the source
looks up `f"{field_name}_min"`, so the default field name `"resume"` finds
no `"resume_min"` key and falls back to a minimum of 0. -/
def validate_input_length (text : Str) (field_name : Str := str "resume") :
    ValidationResult :=
  if text.isEmpty then
    ⟨false, pstr text, [field_name ++ str " is empty"], [], qOne⟩
  else
    let text_len := text.length
    let min_len := (INPUT_LIMITS_get (field_name ++ str "_min")).getD 0
    let max_len := (INPUT_LIMITS_get (field_name ++ str "_max")).getD 5000
    let errors :=
      if text_len < min_len then
        [field_name ++ str " is too short (" ++ natStr text_len ++
          str " chars, minimum " ++ natStr min_len ++ str ")"]
      else []
    let wt : List Str × Str :=
      if max_len < text_len then
        ([field_name ++ str " exceeds maximum length (" ++ natStr text_len ++
            str " chars, max " ++ natStr max_len ++ str "). Will be truncated."],
          text.take max_len)
      else ([], text)
    ⟨errors.isEmpty, pstr wt.2, errors, wt.1, qOne⟩

/-! ### Character classes and regex scans used by the validators -/

def isEmailLocalChar (c : Char) : Bool :=
  c.isAlphanum || c = '.' || c = '_' || c = '%' || c = '+' || c = '-'

def isEmailDomainChar (c : Char) : Bool :=
  c.isAlphanum || c = '.' || c = '-'

/-- The character class `[\d\s\-\.\(\)]` of the phone patterns. -/
def isPhoneClassChar (c : Char) : Bool :=
  c.isDigit || isPyWs c || c = '-' || c = '.' || c = '(' || c = ')'

/-- Full match of `PATTERNS["email"]`:
`^[a-zA-Z0-9._%+-]+@[a-zA-Z0-9.-]+\.[a-zA-Z]{2,}$` (the classes already
cover both letter cases, so `re.IGNORECASE` adds nothing). -/
def emailFullMatch (s : Str) : Bool :=
  match pySplitOn (str "@") s with
  | [localPart, domain] =>
      ¬ localPart.isEmpty ∧ localPart.all isEmailLocalChar ∧
      (List.range domain.length).any (fun d =>
        0 < d ∧ domain.getD d ' ' = '.' ∧
        (domain.take d).all isEmailDomainChar ∧
        2 ≤ domain.length - (d + 1) ∧
        (domain.drop (d + 1)).all (fun c => c.isAlpha))
  | _ => false

/-- Full match of `PATTERNS["phone"]`: `^[\+]?[\d\s\-\.\(\)]{7,30}$`. -/
def phoneFullMatch (s : Str) : Bool :=
  let t := match s with
    | '+' :: rest => rest
    | t => t
  7 ≤ t.length ∧ t.length ≤ 30 ∧ t.all isPhoneClassChar

/-- `re.search` of the unanchored email pattern used by
`validate_is_resume` (line 250): some position carries
`local+ @ domain+ . alpha alpha`. -/
def hasEmailSearch (s : Str) : Bool :=
  (List.range s.length).any (fun i =>
    s.getD i ' ' = '@' ∧ 0 < i ∧ isEmailLocalChar (s.getD (i - 1) ' ') ∧
    (List.range s.length).any (fun d =>
      i + 1 < d ∧ s.getD d ' ' = '.' ∧
      ((s.drop (i + 1)).take (d - i - 1)).all isEmailDomainChar ∧
      d + 2 < s.length ∧ (s.getD (d + 1) ' ').isAlpha ∧ (s.getD (d + 2) ' ').isAlpha))

/-- `re.search` of `[\+]?[\d\s\-\.\(\)]{10,20}` (line 251): a match exists
iff the text contains ten consecutive characters of the class (the optional
`+` and the upper bound 20 do not change existence). -/
def hasPhoneSearch (s : Str) : Bool :=
  (List.range s.length).any (fun i =>
    10 ≤ (s.drop i).length ∧ ((s.drop i).take 10).all isPhoneClassChar)

/-- `\b`-anchored search: `p` is tried at every position whose preceding
character is not a word character. -/
def searchBGo (p : Str → Bool) : Option Char → Str → Bool
  | _, [] => false
  | prev, t@(c :: rest) =>
      let bOk : Bool := match prev with
        | none => true
        | some q => ! isWordChar q
      (bOk && p t) || searchBGo p (some c) rest

def searchB (p : Str → Bool) (s : Str) : Bool := searchBGo p none s

/-- `(19|20)\d{2}` at the head of the string. -/
def isYear4 : Str → Bool
  | a :: b :: c :: d :: _ =>
      ((a = '1' ∧ b = '9') ∨ (a = '2' ∧ b = '0')) ∧ c.isDigit ∧ d.isDigit
  | _ => false

/-- `\b` after the consumed prefix: next character (if any) is not `\w`. -/
def noWordAhead : Str → Bool
  | [] => true
  | c :: _ => ! isWordChar c

/-- Literal word at head followed by a `\b`. -/
def wordAt (w : Str) (t : Str) : Bool :=
  w.isPrefixOf t ∧ noWordAhead (t.drop w.length)

/-- Body of `\b(19|20)\d{2}\s*[-–]\s*(19|20)\d{2}\b` (after the leading
boundary, which `searchB` supplies). -/
def dateRangeYY (t : Str) : Bool :=
  isYear4 t &&
  match (t.drop 4).dropWhile isPyWs with
  | c :: t2 =>
      (c = '-' || c = '–') &&
      (let t3 := t2.dropWhile isPyWs
       isYear4 t3 && noWordAhead (t3.drop 4))
  | [] => false

/-- Body of `\b(19|20)\d{2}\s*[-–]\s*(present|current|now)\b`. -/
def dateRangeYPresent (t : Str) : Bool :=
  isYear4 t &&
  match (t.drop 4).dropWhile isPyWs with
  | c :: t2 =>
      (c = '-' || c = '–') &&
      (let t3 := t2.dropWhile isPyWs
       wordAt (str "present") t3 || wordAt (str "current") t3 || wordAt (str "now") t3)
  | [] => false

def MONTH_ABBRS : List Str :=
  [str "jan", str "feb", str "mar", str "apr", str "may", str "jun",
   str "jul", str "aug", str "sep", str "oct", str "nov", str "dec"]

/-- Body of
`\b(jan|feb|mar|apr|may|jun|jul|aug|sep|oct|nov|dec)[a-z]*\s*(19|20)\d{2}\b`
(applied to lower-cased text; the maximal-munch reading of `[a-z]*\s*` is
exact here because neither class can consume the year digits). -/
def dateMonthYear (t : Str) : Bool :=
  MONTH_ABBRS.any (fun ab => ab.isPrefixOf t) ∧
  (let rest := t.drop 3
   let letters := rest.takeWhile (fun c => 'a' ≤ c ∧ c ≤ 'z')
   let afterWs := (rest.drop letters.length).dropWhile isPyWs
   isYear4 afterWs ∧ noWordAhead (afterWs.drop 4))

/-- `value is None or value in ['null', 'None', '', 'N/A']` — the guard shared
by the field validators. -/
def isNullish (v : PyVal) : Bool := pvBeq v pnone || isSentinel v

/-- `validators.validate_email` (lines 356–395). -/
def validate_email (v : PyVal) : ValidationResult :=
  if isNullish v then ⟨true, pnone, [], [], qZero⟩
  else
    let email := pyLower (pyStrip (pyStrOf v))
    if 254 < email.length then
      ⟨false, pnone, [str "Email too long (" ++ natStr email.length ++ str " chars)"], [], qOne⟩
    else if emailFullMatch email then
      if pyCount email (str "@") ≠ 1 then
        ⟨false, pnone, [str "Invalid email format"], [], qOne⟩
      else
        let parts := pySplitOn (str "@") email
        let localPart := parts.headD []
        let domain := parts.getD 1 []
        if 64 < localPart.length ∨ 255 < domain.length then
          ⟨false, pnone, [str "Email parts too long"], [], qOne⟩
        else
          let common := [str "gmail.com", str "yahoo.com", str "hotmail.com", str "outlook.com"]
          if ¬ common.contains domain ∧
              [str "gmial", str "yaho", str "hotmal"].any (fun d => strContains domain d) then
            ⟨true, pstr email, [], [str "Possible email domain typo"], fl 7 10⟩
          else
            ⟨true, pstr email, [], [], fl 95 100⟩
    else
      ⟨false, pnone, [str "Invalid email format: " ++ email], [], qOne⟩

/-- `validators.validate_phone` (lines 398–438). -/
def validate_phone (v : PyVal) : ValidationResult :=
  if isNullish v then ⟨true, pnone, [], [], qZero⟩
  else
    let phone := pyStrip (pyStrOf v)
    let digits_only := phone.filter Char.isDigit
    if digits_only.length < 7 then
      ⟨false, pnone, [str "Phone number too short (less than 7 digits)"], [], qOne⟩
    else if 15 < digits_only.length then
      ⟨false, pnone, [str "Phone number too long (more than 15 digits)"], [], qOne⟩
    else if phoneFullMatch phone then
      ⟨true, pstr phone, [], [], fl 9 10⟩
    else if 7 ≤ digits_only.length ∧ digits_only.length ≤ 15 then
      ⟨true, pstr digits_only, [], [str "Phone format normalized to digits only"], fl 7 10⟩
    else
      ⟨false, pnone, [str "Invalid phone format: " ++ phone], [], qOne⟩

/-- Full match of `^[A-Z][a-z]+(\s+[A-Z][a-z]+)*$`: words of one upper-case
letter followed by at least one lower-case letter, separated by whitespace
runs, nothing else.  `capWordTail` consumes `[a-z]+` after the initial
capital; the worker is fueled by the string length. -/
def properCapGo : Nat → Str → Bool
  | 0, _ => false
  | fuel + 1, t =>
      match t with
      | c :: rest =>
          if c.isUpper then
            let lowers := rest.takeWhile Char.isLower
            if lowers.isEmpty then false
            else
              let after := rest.drop lowers.length
              if after.isEmpty then true
              else
                let ws := after.takeWhile isPyWs
                if ws.isEmpty then false
                else properCapGo fuel (after.drop ws.length)
          else false
      | [] => false

def properCapMatch (s : Str) : Bool := properCapGo (s.length + 1) s

/-- Full match of `PATTERNS["name"]`: `^[a-zA-Z\s\.\-\']+$`. -/
def namePatternMatch (s : Str) : Bool :=
  ¬ s.isEmpty ∧ s.all (fun c => c.isAlpha || isPyWs c || c = '.' || c = '-' || c = '\'')

/-- `validators.validate_name` (lines 441–490). -/
def validate_name (v : PyVal) : ValidationResult :=
  if pvBeq v pnone || isSentinel v ||
      pvBeq v (pstr (str "Unknown")) || pvBeq v (pstr (str "Pending extraction...")) then
    ⟨false, pnone, [str "Name is missing or invalid"], [], qOne⟩
  else
    let name := pyStrip (pyStrOf v)
    if name.length < 2 then
      ⟨false, pnone, [str "Name too short"], [], qOne⟩
    else if 100 < name.length then
      ⟨false, pnone, [str "Name too long (" ++ natStr name.length ++ str " chars)"], [], qOne⟩
    else
      let lname := pyLower name
      let suspicious :=
        (¬ name.isEmpty ∧ name.all Char.isDigit) ∨
        (¬ name.isEmpty ∧ name.all (fun c => ¬ c.isAlpha)) ∨
        ([str "test", str "example", str "sample", str "dummy", str "placeholder"].any
          (fun w => strContains lname w)) ∨
        ([str "resume", str "cv", str "curriculum"].any (fun w => strContains lname w)) ∨
        (lname = str "na" ∨ lname = str "n/a")
      if suspicious then
        ⟨false, pnone, [str "Name appears invalid: " ++ name], [], qOne⟩
      else
        let confidence : PyFloat :=
          if properCapMatch name then fl 95 100
          else if namePatternMatch name then fl 85 100
          else fl 8 10
        ⟨true, pstr name, [], [], confidence⟩

/-- Full match of `PATTERNS["url"]`: scheme `https?://` then at least one
character outside the excluded set (whitespace, angle brackets, quote,
braces, pipe, backslash, caret, backtick, square brackets), anchored at both
ends, under `re.IGNORECASE` (the scheme may be any casing; the negated class
is case-blind anyway). -/
def urlFullMatch (s : Str) : Bool :=
  let lower := pyLower s
  let rest :=
    if (str "https://").isPrefixOf lower then some (s.drop 8)
    else if (str "http://").isPrefixOf lower then some (s.drop 7)
    else none
  match rest with
  | none => false
  | some t =>
      ¬ t.isEmpty ∧ t.all (fun c =>
        ¬ (isPyWs c || c = '<' || c = '>' || c = '"' || c = Char.ofNat 0x7b ||
           c = Char.ofNat 0x7d || c = '|' || c = '\\' || c = '^' ||
           c = Char.ofNat 0x60 || c = '[' || c = ']'))

/-- `validators.validate_url` (lines 493–539). -/
def validate_url (v : PyVal) (url_type : Str := str "url") : ValidationResult :=
  if isNullish v then ⟨true, pnone, [], [], qZero⟩
  else
    let url := pyStrip (pyStrOf v)
    if 2048 < url.length then
      ⟨false, pnone, [str "URL too long"], [], qOne⟩
    else
      let url :=
        if ¬ (str "http://").isPrefixOf url ∧ ¬ (str "https://").isPrefixOf url then
          str "https://" ++ url
        else url
      if ¬ urlFullMatch url then
        ⟨false, pnone, [str "Invalid URL format: " ++ url], [], qOne⟩
      else if url_type = str "linkedin" then
        if strContains (pyLower url) (str "linkedin.com") then
          ⟨true, pstr url, [], [], fl 95 100⟩
        else
          ⟨false, pnone, [str "Not a LinkedIn URL"], [], qOne⟩
      else if url_type = str "github" then
        if strContains (pyLower url) (str "github.com") then
          ⟨true, pstr url, [], [], fl 95 100⟩
        else
          ⟨false, pnone, [str "Not a GitHub URL"], [], qOne⟩
      else
        ⟨true, pstr url, [], [], fl 8 10⟩

/-- `validators.VALID_DEPARTMENTS` (lines 72–76).  The source stores these in
a Python `set`, whose iteration order is unspecified; the two scanning loops
below therefore have an implementation-defined tie-break which this model
fixes to the source listing order. -/
def VALID_DEPARTMENTS : List Str :=
  [str "IT", str "Quality Assurance", str "Project Management", str "Human Resources",
   str "Finance", str "Marketing", str "Sales", str "Customer Support", str "Operations",
   str "Research & Development", str "Engineering", str "Design", str "Legal"]

/-- `validators.validate_department` (lines 542–575). -/
def validate_department (v : PyVal) : ValidationResult :=
  if isNullish v then ⟨true, pnone, [], [], qZero⟩
  else
    let department := pyStrip (pyStrOf v)
    if VALID_DEPARTMENTS.contains department then
      ⟨true, pstr department, [], [], fl 95 100⟩
    else
      match VALID_DEPARTMENTS.find? (fun vd => pyLower department = pyLower vd) with
      | some vd => ⟨true, pstr vd, [], [], fl 9 10⟩
      | none =>
          let dept_lower := pyLower department
          match VALID_DEPARTMENTS.find? (fun vd =>
              strContains dept_lower (pyLower vd) || strContains (pyLower vd) dept_lower) with
          | some vd =>
              ⟨true, pstr vd, [],
                [str "Department normalized from '" ++ department ++ str "' to '" ++ vd ++ str "'"],
                fl 7 10⟩
          | none =>
              ⟨true, pstr department, [],
                [str "Non-standard department: " ++ department], fl 1 2⟩

/-- `validators.validate_array_field` (lines 578–612). -/
def validate_array_field (v : PyVal) (field_name : Str) : ValidationResult :=
  if isNullish v then ⟨true, pnone, [], [], qZero⟩
  else
    let value : PyVal :=
      match v with
      | pstr s =>
          match jsonLoads s with
          | some j => j
          | none =>
              plist (((pySplitOn (str ",") s).map pyStrip).filter
                (fun p => ¬ p.isEmpty) |>.map pstr)
      | other => other
    match value with
    | plist xs =>
        if 50 < xs.length then
          ⟨true, plist (xs.take 50), [],
            [field_name ++ str " truncated to 50 items"], fl 8 10⟩
        else if xs.all (fun item =>
            match item with
            | pstr _ => true
            | pdict _ => true
            | _ => false) then
          let cleaned := xs.filter (fun item => pyTruthy item && ! isSentinel item)
          ⟨true, if cleaned.isEmpty then pnone else plist cleaned, [], [], fl 9 10⟩
        else
          ⟨true, plist xs, [], [], fl 8 10⟩
    | _ =>
        ⟨false, pnone, [field_name ++ str " must be a list"], [], qOne⟩

/-- `validators.validate_is_resume` (lines 179–349): keyword lists. -/
def SECTION_KEYWORDS : List Str :=
  [str "experience", str "work experience", str "employment history",
   str "professional experience", str "education", str "academic background",
   str "qualifications", str "skills", str "technical skills",
   str "core competencies", str "expertise", str "objective",
   str "career objective", str "professional summary", str "summary",
   str "certifications", str "certificates", str "licenses", str "projects",
   str "achievements", str "accomplishments", str "references", str "awards",
   str "publications"]

def PROFESSIONAL_KEYWORDS : List Str :=
  [str "resume", str "cv", str "curriculum vitae", str "job", str "position",
   str "role", str "responsibilities", str "employer", str "company",
   str "organization", str "manager", str "engineer", str "developer",
   str "analyst", str "consultant", str "worked", str "managed",
   str "developed", str "led", str "implemented", str "years of experience",
   str "years experience"]

/-- `(indicator, doc_type)` pairs of `validate_is_resume` (lines 277–292). -/
def NON_RESUME_INDICATORS : List (Str × Str) :=
  [(str "invoice", str "invoice"), (str "receipt", str "receipt"),
   (str "contract", str "legal contract"), (str "agreement", str "agreement document"),
   (str "bill", str "billing document"), (str "statement", str "bank/financial statement"),
   (str "report", str "report document"), (str "meeting minutes", str "meeting minutes"),
   (str "memo", str "memorandum"), (str "policy", str "policy document"),
   (str "manual", str "user manual"), (str "instructions", str "instruction document"),
   (str "letter of recommendation", str "recommendation letter"),
   (str "cover letter", str "cover letter (not a resume)")]

/-- Resume-section keyword hits of `validate_is_resume`. -/
def resume_section_matches (text_lower : Str) : Nat :=
  SECTION_KEYWORDS.countP (fun kw => strContains text_lower kw)

/-- Professional keyword hits of `validate_is_resume`. -/
def resume_professional_matches (text_lower : Str) : Nat :=
  PROFESSIONAL_KEYWORDS.countP (fun kw => strContains text_lower kw)

/-- Date-pattern hits of `validate_is_resume` (lines 261–266). -/
def resume_date_matches (text_lower : Str) : Nat :=
  [searchB dateRangeYY text_lower, searchB dateRangeYPresent text_lower,
    searchB dateMonthYear text_lower].countP (fun b => b = true)

/-- The non-resume indicators that fire (lines 294–299). -/
def resume_triggered (text_lower : Str) : List (Str × Str) :=
  NON_RESUME_INDICATORS.filter (fun p =>
    3 ≤ pyCount text_lower p.1 ∨
    (strContains (text_lower.take 200) p.1 ∧ resume_section_matches text_lower < 2))

/-- The total score of `validate_is_resume` (an `int`; deductions can drive
it negative). -/
def resume_score (text : Str) : Int :=
  let text_lower := pyLower text
  let section_matches := resume_section_matches text_lower
  let score1 : Int :=
    if 3 ≤ section_matches then 35
    else if 2 ≤ section_matches then 25
    else if 1 ≤ section_matches then 15
    else 0
  let professional_matches := resume_professional_matches text_lower
  let score2 : Int :=
    if 4 ≤ professional_matches then 25
    else if 2 ≤ professional_matches then 15
    else if 1 ≤ professional_matches then 8
    else 0
  let score3 : Int :=
    (if hasEmailSearch text then 15 else 0) + (if hasPhoneSearch text then 10 else 0)
  let score4 : Int :=
    if 2 ≤ resume_date_matches text_lower then 15
    else if 1 ≤ resume_date_matches text_lower then 8
    else 0
  score1 + score2 + score3 + score4 - 20 * (resume_triggered text_lower).length

/-- Warnings emitted by `validate_is_resume` for the triggered non-resume
indicators. -/
def resume_warnings (text : Str) : List Str :=
  (resume_triggered (pyLower text)).map (fun p =>
    str "Document may be a " ++ p.2 ++ str " rather than a resume")

/-- `min(max(score / max_score, 0.0), 1.0)` (line 306). -/
def resume_confidence (text : Str) : PyFloat :=
  pyMin (pyMax (qDiv ⟨resume_score text, 1⟩ ⟨100, 1⟩) qZero) qOne

/-- The rejection message assembled on lines 312–326. -/
def resume_error_msg (text : Str) : Str :=
  let text_lower := pyLower text
  let missing : List Str :=
    (if resume_section_matches text_lower < 2 then
      [str "resume sections (experience, education, skills)"] else []) ++
    (if ¬ hasEmailSearch text ∧ ¬ hasPhoneSearch text then
      [str "contact information (email or phone)"] else []) ++
    (if resume_professional_matches text_lower < 2 then
      [str "professional/career-related content"] else [])
  str "The uploaded document does not appear to be a resume/CV. " ++
  (if ¬ missing.isEmpty then str "Missing: " ++ strJoin (str ", ") missing ++ str ". "
   else []) ++
  str "Please upload a valid resume document."

/-- `validators.validate_is_resume` (lines 179–349), assembled from the
score helpers above. -/
def validate_is_resume (text : Str) : ValidationResult :=
  if text.isEmpty ∨ (pyStrip text).length < 50 then
    ⟨false, pstr text, [str "Document is too short or empty to be a valid resume"], [], qZero⟩
  else if resume_score text < 40 then
    ⟨false, pstr text, [resume_error_msg text], resume_warnings text, resume_confidence text⟩
  else
    ⟨true, pstr text, [], resume_warnings text, resume_confidence text⟩

/-! ## Schema enforcement (`validators.enforce_schema`) -/

/-- `validators.ExtractionResult` (lines 93–100). -/
structure ExtractionResult where
  data : List (Str × PyVal)
  field_confidences : List (Str × PyFloat)
  overall_confidence : PyFloat
  validation_errors : List Str
  validation_warnings : List Str
  deriving DecidableEq

/-- The field order of `validators.EXTRACTION_SCHEMA` (lines 619–633). -/
def EXTRACTION_SCHEMA_FIELDS : List Str :=
  [str "name", str "email", str "phone", str "linkedin_url", str "department",
   str "position", str "summary", str "work_experience", str "education",
   str "technical_skills", str "languages", str "hobbies",
   str "cocurricular_activities"]

/-- `required` flags of the schema: only `name` is required. -/
def schema_required (f : Str) : Bool := f = str "name"

/-- The per-field validators of `EXTRACTION_SCHEMA`.  `summary` has
`"validator": None`; the `position` entry is the inline lambda of line 625
(whose null-marker list is `['null', 'None', '']`, without `'N/A'`). -/
def schema_validator (f : Str) : Option (PyVal → ValidationResult) :=
  if f = str "name" then some validate_name
  else if f = str "email" then some validate_email
  else if f = str "phone" then some validate_phone
  else if f = str "linkedin_url" then some (fun v => validate_url v (str "linkedin"))
  else if f = str "department" then some validate_department
  else if f = str "position" then some (fun v =>
    ⟨true,
      if pyTruthy v &&
          ! (pvBeq v (pstr (str "null")) || pvBeq v (pstr (str "None")) || pvBeq v (pstr [])) then
        v
      else pnone,
      [], [], fl 8 10⟩)
  else if f = str "summary" then none
  else if f = str "work_experience" ∨ f = str "education" ∨ f = str "technical_skills" ∨
      f = str "languages" ∨ f = str "hobbies" ∨ f = str "cocurricular_activities" then
    some (fun v => validate_array_field v f)
  else none

/-- `validators.enforce_schema` (lines 636–689).  The input is typed as a
dict (association list with unique keys), so the `not isinstance(data, dict)`
guard of the source cannot fire in the model. -/
def enforce_schema (data : List (Str × PyVal)) : ExtractionResult :=
  let acc := EXTRACTION_SCHEMA_FIELDS.foldl
    (fun (acc : List (Str × PyVal) × List (Str × PyFloat) × List Str × List Str) field =>
      let raw := (alistGet data field).getD pnone
      match schema_validator field with
      | some val =>
          let r := val raw
          (acc.1 ++ [(field, r.value)],
           acc.2.1 ++ [(field, r.confidence)],
           acc.2.2.1 ++ r.errors.map (fun e => field ++ str ": " ++ e),
           acc.2.2.2 ++ r.warnings.map (fun w => field ++ str ": " ++ w))
      | none =>
          if isNullish raw then
            (acc.1 ++ [(field, pnone)], acc.2.1 ++ [(field, qZero)], acc.2.2.1, acc.2.2.2)
          else
            (acc.1 ++ [(field, raw)], acc.2.1 ++ [(field, fl 7 10)], acc.2.2.1, acc.2.2.2))
    ([], [], [], [])
  let validated_data := acc.1
  let field_confidences := acc.2.1
  let required_errors := EXTRACTION_SCHEMA_FIELDS.filterMap (fun field =>
    if schema_required field ∧
        ¬ pyTruthy ((alistGet validated_data field).getD pnone) then
      some (str "Required field '" ++ field ++ str "' is missing")
    else none)
  let non_zero := field_confidences.filter (fun c => qLt qZero c.2)
  let overall :=
    if non_zero.isEmpty then qZero
    else qDiv (non_zero.foldl (fun a c => qAdd a c.2) qZero) ⟨non_zero.length, 1⟩
  ⟨validated_data, field_confidences, overall, acc.2.2.1 ++ required_errors, acc.2.2.2⟩

/-! ## Ensemble extraction (`validators.ensemble_extract`) -/

/-- De-duplication key of merged list items (`json.dumps` for dicts,
`str` otherwise — `validators.py` lines 800–805). -/
def itemKey (v : PyVal) : Str :=
  match v with
  | pdict _ => pyJsonDumps v
  | _ => pyStrOf v

/-- First-seen de-duplication by `itemKey`. -/
def dedupByKeyGo (seen : List Str) : List PyVal → List PyVal
  | [] => []
  | v :: rest =>
      let k := itemKey v
      if seen.contains k then dedupByKeyGo seen rest
      else v :: dedupByKeyGo (k :: seen) rest

def dedupByKey (xs : List PyVal) : List PyVal := dedupByKeyGo [] xs

/-- Accumulate `value_weights[key] += weight` preserving first-insertion
order (a Python dict). -/
def addWeight (acc : List (Str × PyFloat)) (k : Str) (w : PyFloat) :
    List (Str × PyFloat) :=
  if acc.any (fun p => p.1 = k) then
    acc.map (fun p => if p.1 = k then (p.1, qAdd p.2 w) else p)
  else acc ++ [(k, w)]

/-- `max(value_weights.items(), key=lambda x: x[1])[0]`: Python `max` keeps
the first maximal item in iteration (insertion) order. -/
def maxByWeight : List (Str × PyFloat) → Str
  | [] => []
  | p :: rest => (rest.foldl (fun acc q => if qLt acc.2 q.2 then q else acc) p).1

/-- `validators.ensemble_extract` (lines 746–820).  `all_fields` is a Python
`set` with unspecified iteration order, modelled as first-seen order of the
inputs' keys; `list.extend` on a string value iterates its characters, which
the model reproduces (`extend` on a non-iterable would raise — modelled as
contributing nothing, a path no claim exercises). -/
def ensemble_extract (extractions : List (List (Str × PyVal)))
    (weights : Option (List PyFloat) := none) : List (Str × PyVal) :=
  match extractions with
  | [] => []
  | [e] => e
  | _ =>
      let n := extractions.length
      let ws := weights.getD (List.replicate n qOne)
      let total := ws.foldl qAdd qZero
      let wnorm := ws.map (fun w => qDiv w total)
      let all_fields := (extractions.flatMap (fun e => e.map (fun kv => kv.1))).eraseDups
      all_fields.map (fun field =>
        let vww := extractions.enum.filterMap (fun ie =>
          match alistGet ie.2 field with
          | some v =>
              if ! (pvBeq v pnone) && ! isSentinel v then
                some (v, wnorm.getD ie.1 qZero)
              else none
          | none => none)
        match vww with
        | [] => (field, pnone)
        | (v₀, _) :: _ =>
            match v₀ with
            | plist _ =>
                let all_items := vww.flatMap (fun p =>
                  match p.1 with
                  | plist xs => xs
                  | pstr s => s.map (fun c => pstr [c])
                  | _ => [])
                let unique := dedupByKey all_items
                (field, if unique.isEmpty then pnone else plist unique)
            | _ =>
                let vw := vww.foldl (fun acc p => addWeight acc (pyStrOf p.1) p.2) []
                let best := maxByWeight vw
                (field, ((vww.find? (fun p => pyStrOf p.1 = best)).map (fun p => p.1)).getD pnone))

/-! ## Verification (`extraction_utils.py`) -/

/-- `extraction_utils.verify_extraction_field` (lines 363–406). -/
def verify_extraction_field (field_name : Str) (value : PyVal)
    (original_text : Str) : Bool :=
  if pvBeq value pnone || isSentinel value then true
  else
    let text_lower := pyLower original_text
    match value with
    | pstr s =>
        if strContains text_lower (pyLower s) then true
        else if field_name = str "name" then
          ((pySplitWs (pyLower s)).filter (fun w => 2 < w.length)).all
            (fun w => strContains text_lower w)
        else false
    | plist xs =>
        if xs.isEmpty then true
        else
          0 < xs.countP (fun item =>
            match item with
            | pstr s => strContains text_lower (pyLower s)
            | pdict kvs =>
                let company := pyLower (pyStrOf ((alistGet kvs (str "company")).getD (pstr [])))
                let role := pyLower (pyStrOf ((alistGet kvs (str "role")).getD (pstr [])))
                if ¬ company.isEmpty ∧ strContains text_lower company then true
                else if ¬ role.isEmpty ∧ strContains text_lower role then true
                else false
            | _ => false)
    | _ => true

/-- The four high-risk fields of `quick_verify_extraction` (line 425). -/
def VERIFY_FIELDS : List Str :=
  [str "name", str "email", str "phone", str "position"]

/-- One iteration of the `for field in verify_fields` loop of
`quick_verify_extraction`. -/
def qvStep (original_text : Str) (acc : List (Str × PyVal) × List Str)
    (field : Str) : List (Str × PyVal) × List Str :=
  let value := (alistGet acc.1 field).getD pnone
  if pyTruthy value && ! verify_extraction_field field value original_text then
    (alistSet acc.1 field pnone,
     acc.2 ++ [str "[VERIFY] Field '" ++ field ++ str "' value '" ++ pyStrOf value ++
       str "' not found in text - setting to null"])
  else acc

/-- `extraction_utils.quick_verify_extraction` (lines 409–436).  The second
component records the `logger.warning` messages the source emits when a
field is nulled (its only observable effect besides the returned dict). -/
def quick_verify_extraction (extraction : List (Str × PyVal))
    (original_text : Str) : List (Str × PyVal) × List Str :=
  VERIFY_FIELDS.foldl (qvStep original_text) (extraction, [])


/-! ## Spec-side rubric definitions (claim C3) and concrete instances -/

/-- Claim C3's reading of the phonetic rule: Soundex equality on the first
or the last token (tokens of the raw strings, as the source tokenises). -/
def soundex_first_or_last (reference name : Str) : Bool :=
  match pySplitWs reference, pySplitWs name with
  | w1 :: _, w2 :: _ =>
      soundex w1 = soundex w2 ∨
        soundex ((pySplitWs reference).getLastD w1) = soundex ((pySplitWs name).getLastD w2)
  | _, _ => false

/-- The email-local rule shared by both rubric readings (rule 11). -/
def emailLocalRule (reference : Str) (e : Employee) : Bool :=
  let rn := normalize_name reference
  ¬ e.email.isEmpty &&
    (let email_local := pyLower ((pySplitOn (str "@") e.email).headD [])
     strContains email_local (rn.filter (fun c => c ≠ ' ')) ||
       strContains (rn.filter (fun c => c ≠ ' ')) email_local)

/-- The scoring rubric exactly as claim C3 states it, first matching rule
wins.  It differs from the source in two rules: rule 8 (score 40) places no
minimum length on the reference token, and rule 9 (score 35) is Soundex
equality on the first or last token regardless of token counts. -/
def rubric_claimed (reference : Str) (e : Employee) : Nat :=
  let rn := normalize_name reference
  let nn := normalize_name e.name
  if rn = nn then 100
  else if pyLower reference = pyLower e.name then 95
  else if rn.filter (fun c => c ≠ ' ') = nn.filter (fun c => c ≠ ' ') then 90
  else if 2 ≤ (pySplitWs rn).length ∧ 2 ≤ (pySplitWs nn).length ∧
      sameWordSet (pySplitWs rn) (pySplitWs nn) then 85
  else if strContains nn rn then 70
  else if strContains rn nn then 65
  else if (pySplitWs rn).any (fun t => 2 < t.length ∧ strContains nn t) then 50
  else if (pySplitWs nn).any (fun np => 3 < np.length ∧
      (pySplitWs rn).any (fun sp => strContains np sp || sp.isPrefixOf np)) then 40
  else if soundex_first_or_last reference e.name then 35
  else if emailLocalRule reference e then 30
  else 0

/-- The rubric as amended: rule 8 additionally requires the reference token
to have at least 3 characters (`len(search_part) > 2` in the source), and
rule 9 scores 35 exactly when `names_sound_similar` holds — Soundex equality
on the first or last token when the two names have different token counts,
and Soundex equality on at least half of the aligned token pairs when the
counts agree. -/
def rubric_amended (reference : Str) (e : Employee) : Nat :=
  let rn := normalize_name reference
  let nn := normalize_name e.name
  if rn = nn then 100
  else if pyLower reference = pyLower e.name then 95
  else if rn.filter (fun c => c ≠ ' ') = nn.filter (fun c => c ≠ ' ') then 90
  else if 2 ≤ (pySplitWs rn).length ∧ 2 ≤ (pySplitWs nn).length ∧
      sameWordSet (pySplitWs rn) (pySplitWs nn) then 85
  else if strContains nn rn then 70
  else if strContains rn nn then 65
  else if (pySplitWs rn).any (fun t => 2 < t.length ∧ strContains nn t) then 50
  else if (pySplitWs nn).any (fun np => 3 < np.length ∧
      (pySplitWs rn).any (fun sp => 2 < sp.length ∧
        (strContains np sp || sp.isPrefixOf np))) then 40
  else if names_sound_similar reference e.name then 35
  else if emailLocalRule reference e then 30
  else 0

/-! ### Concrete instances used by the claims -/

/-- Two employees both named "John Smith" (spec §8 resolver-ambiguity
example). -/
def emp_js1 : Employee := ⟨1, str "John Smith", [], [], []⟩

def emp_js2 : Employee := ⟨2, str "John Smith", [], [], []⟩

def john_smith_catalog : List Employee := [emp_js1, emp_js2]

/-- An employee whose name partially matches "John Smith" (score 50 via the
"smith" token). -/
def emp_jon : Employee := ⟨2, str "Jon Smith", [], [], []⟩

/-- Catalog on which exactly one candidate reaches the actionable threshold
yet resolution still asks for disambiguation. -/
def mixed_catalog : List Employee := [emp_js1, emp_jon]

/-- C3 counterexample input: first tokens "john"/"jon" are Soundex-equal but
only one of three aligned token pairs matches. -/
def emp_c3a : Employee := ⟨3, str "jon cc dd", [], [], []⟩

/-- C3 second counterexample input: name token "alan" starts with the
2-character reference token "al". -/
def emp_c3b : Employee := ⟨4, str "alan park", [], [], []⟩

/-- The frozen reference date 2024-01-15 of the duration examples. -/
def frozen_today : PyDate := ⟨2024, 1, 15⟩

/-- C9 ensemble passes. -/
def pass1 : List (Str × PyVal) :=
  [(str "name", pstr (str "A")), (str "technical_skills", plist [pstr (str "Python")])]

def pass2 : List (Str × PyVal) :=
  [(str "name", pstr (str "B")), (str "technical_skills", plist [pstr (str "Java")])]

def pass3 : List (Str × PyVal) :=
  [(str "name", pstr (str "A")), (str "technical_skills", plist [pstr (str "Python")])]

/-- C8 witness record: a phone number that does not occur in the source
text, next to a name that does. -/
def c8_record : List (Str × PyVal) :=
  [(str "phone", pstr (str "5551234567")), (str "name", pstr (str "Bob Lee"))]

/-- C5 witness input. -/
def c5_record : List (Str × PyVal) :=
  [(str "name", pstr (str "John Smith")), (str "email", pstr (str "j@x.co"))]


/-! ## Claim theorems -/

/-- C4 (counterexample): the job interval [2019-01, 2021-12] checked against
the query window [2020-01, 2020-12] is *not* classified `"contained"` — the
code classifies it `"contains"` (the job covers the whole window), so the
claim's example is wrong. -/
theorem C4_counterexample :
    date_range_overlap_type ⟨2019, 1, 1⟩ ⟨2021, 12, 31⟩ ⟨2020, 1, 1⟩ ⟨2020, 12, 31⟩ ≠
      some (str "contained") := by decide

/-- C4 (amended): two closed date intervals `[s1,e1]`, `[s2,e2]` are reported
as overlapping iff `s1 ≤ e2 ∧ e1 ≥ s2`; the job interval [2019-01, 2021-12]
against the window [2020-01, 2020-12] is classified `"contains"`, and the
same interval against [2022-01, 2023-12] yields no overlap. -/
theorem C4_overlap_classification :
    (∀ a b c d : PyDate,
      check_date_range_overlap a b c d = true ↔ dateLe a d = true ∧ dateLe c b = true) ∧
    date_range_overlap_type ⟨2019, 1, 1⟩ ⟨2021, 12, 31⟩ ⟨2020, 1, 1⟩ ⟨2020, 12, 31⟩ =
      some (str "contains") ∧
    date_range_overlap_type ⟨2019, 1, 1⟩ ⟨2021, 12, 31⟩ ⟨2022, 1, 1⟩ ⟨2023, 12, 31⟩ = none := by
  refine ⟨fun a b c d => ?_, by decide, by decide⟩
  simp [check_date_range_overlap, Bool.and_eq_true]

/-- C6: `duration_to_months` never returns a negative month count, and
against the frozen reference date 2024-01-15, "Jan 2020 - Present" yields 48
months and "2018-2020" yields 24 months (and "-2020", whose separator split
leaves an empty falsy start piece, re-extracts the year and also yields 48). -/
theorem C6_duration_to_months :
    (∀ (today : PyDate) (s : Str), 0 ≤ parse_duration_to_months today s) ∧
    parse_duration_to_months frozen_today (str "Jan 2020 - Present") = 48 ∧
    parse_duration_to_months frozen_today (str "2018-2020") = 24 ∧
    parse_duration_to_months frozen_today (str "-2020") = 48 := by
  refine ⟨fun today s => ?_, by decide, by decide, by decide⟩
  unfold parse_duration_to_months
  split
  · exact le_refl 0
  · dsimp only
    split
    · exact le_refl 0
    · exact le_max_left 0 _

/-- C7: parsing "python and aws not junior" produces
`must_have = {python, aws}`, `must_not = {junior}`, `should_have = {}`. -/
theorem C7_compound_query :
    (parse_compound_query (str "python and aws not junior")).must_have.Perm
      [str "python", str "aws"] ∧
    (parse_compound_query (str "python and aws not junior")).should_have = [] ∧
    (parse_compound_query (str "python and aws not junior")).must_not =
      [str "junior"] := by
  exact ⟨by decide, by decide, by decide⟩

/-- C9: merging skills `["Python"], ["Java"], ["Python"]` with equal weights
yields the first-seen-order union `["Python", "Java"]` while the names
"A", "B", "A" merge to "A" by weighted majority; a single-element input list
is returned unchanged (for any weights). -/
theorem C9_ensemble_merge :
    (∀ (r : List (Str × PyVal)) (w : Option (List PyFloat)), ensemble_extract [r] w = r) ∧
    alistGet (ensemble_extract [pass1, pass2, pass3]) (str "technical_skills") =
      some (plist [pstr (str "Python"), pstr (str "Java")]) ∧
    alistGet (ensemble_extract [pass1, pass2, pass3]) (str "name") =
      some (pstr (str "A")) ∧
    alistGet (ensemble_extract [pass1, pass2, pass3] (some [qOne, qOne, qOne]))
        (str "technical_skills") =
      some (plist [pstr (str "Python"), pstr (str "Java")]) ∧
    alistGet (ensemble_extract [pass1, pass2, pass3] (some [qOne, qOne, qOne]))
        (str "name") = some (pstr (str "A")) := by
  exact ⟨fun r w => rfl, by decide, by decide, by decide, by decide⟩

/-- C5: for every input mapping, `overall_confidence` is the arithmetic mean
of exactly the strictly positive per-field confidences, and 0 when none is
positive; on the sample record the mean is 0.9. -/
theorem C5_overall_confidence :
    (∀ data : List (Str × PyVal),
      (enforce_schema data).overall_confidence =
        (let pos := (enforce_schema data).field_confidences.filter (fun c => qLt qZero c.2)
         if pos.isEmpty then qZero
         else qDiv (pos.foldl (fun a c => qAdd a c.2) qZero) ⟨(pos.length : Int), 1⟩)) ∧
    qEq (enforce_schema c5_record).overall_confidence (fl 9 10) = true := by
  exact ⟨fun data => rfl, by decide⟩


/-- C10: every accepted (non-null, non-sentinel) email value is the input
string stripped of surrounding whitespace and lower-cased. -/
theorem C10_email_canonicalized :
    ∀ (s : Str) (w : Str), isSentinel (pstr s) = false →
      (validate_email (pstr s)).value = pstr w →
      w = pyLower (pyStrip s) := by
  intro s w hs hv
  unfold validate_email at hv
  rw [show isNullish (pstr s) = false by simp [isNullish, pvBeq, hs]] at hv
  simp only [Bool.false_eq_true, if_false] at hv
  split_ifs at hv <;> simp_all [pyStrOf]

/-- C10 witness: `" John@EXAMPLE.com "` is accepted with the canonical value
`"john@example.com"`, which is exactly the stripped, lower-cased input. -/
theorem C10_email_canonicalized_witness :
    str "john@example.com" = pyLower (pyStrip (str " John@EXAMPLE.com ")) :=
  C10_email_canonicalized (str " John@EXAMPLE.com ") (str "john@example.com")
    (by decide) (by decide)

/-- The clamp `min(max(x, 0.0), 1.0)` lands in [0, 1]. -/
theorem clamp01_bounds (x : PyFloat) :
    qLe qZero (pyMin (pyMax x qZero) qOne) = true ∧
    qLe (pyMin (pyMax x qZero) qOne) qOne = true := by
  unfold pyMin pyMax qLt qLe qZero qOne
  split_ifs <;> simp_all

/-- C2 (counterexample): `validate_input_length` on the empty string returns
`is_valid = false` while keeping the string itself (not null) as value, so
`is_valid = false ⇒ value = null` does not hold for every validator. -/
theorem C2_counterexample :
    (validate_input_length [] (str "resume")).is_valid = false ∧
    (validate_input_length [] (str "resume")).value ≠ pnone := by decide

/-- C2 (amended): every validator's confidence lies in [0,1]; the per-field
validators null the value whenever `is_valid = false`, but the two input
validators (`validate_input_length`, `validate_is_resume`) return the
(possibly truncated) input text as value even when invalid. -/
theorem C2_outcome_invariants :
    (∀ (text : Str) (fn : Str),
      qLe qZero (validate_input_length text fn).confidence = true ∧
      qLe (validate_input_length text fn).confidence qOne = true ∧
      ∃ t, (validate_input_length text fn).value = pstr t ∧ t <+: text) ∧
    (∀ text : Str,
      qLe qZero (validate_is_resume text).confidence = true ∧
      qLe (validate_is_resume text).confidence qOne = true ∧
      (validate_is_resume text).value = pstr text) ∧
    (∀ v, (qLe qZero (validate_email v).confidence = true ∧
        qLe (validate_email v).confidence qOne = true) ∧
      ((validate_email v).is_valid = false → (validate_email v).value = pnone)) ∧
    (∀ v, (qLe qZero (validate_phone v).confidence = true ∧
        qLe (validate_phone v).confidence qOne = true) ∧
      ((validate_phone v).is_valid = false → (validate_phone v).value = pnone)) ∧
    (∀ v, (qLe qZero (validate_name v).confidence = true ∧
        qLe (validate_name v).confidence qOne = true) ∧
      ((validate_name v).is_valid = false → (validate_name v).value = pnone)) ∧
    (∀ v ty, (qLe qZero (validate_url v ty).confidence = true ∧
        qLe (validate_url v ty).confidence qOne = true) ∧
      ((validate_url v ty).is_valid = false → (validate_url v ty).value = pnone)) ∧
    (∀ v, (qLe qZero (validate_department v).confidence = true ∧
        qLe (validate_department v).confidence qOne = true) ∧
      ((validate_department v).is_valid = false →
        (validate_department v).value = pnone)) ∧
    (∀ v f, (qLe qZero (validate_array_field v f).confidence = true ∧
        qLe (validate_array_field v f).confidence qOne = true) ∧
      ((validate_array_field v f).is_valid = false →
        (validate_array_field v f).value = pnone)) := by
  refine ⟨?_, ?_, ?_, ?_, ?_, ?_, ?_, ?_⟩
  · intro text fn
    unfold validate_input_length
    split_ifs with h1
    · exact ⟨rfl, rfl, text, rfl, List.prefix_refl text⟩
    · refine ⟨rfl, rfl, ?_⟩
      dsimp only
      split_ifs with h2
      · exact ⟨text.take ((INPUT_LIMITS_get (fn ++ str "_max")).getD 5000), rfl,
          List.take_prefix _ text⟩
      · exact ⟨text, rfl, List.prefix_refl text⟩
  · intro text
    unfold validate_is_resume
    split_ifs with h1 h2
    · exact ⟨rfl, rfl, rfl⟩
    · exact ⟨(clamp01_bounds _).1, (clamp01_bounds _).2, rfl⟩
    · exact ⟨(clamp01_bounds _).1, (clamp01_bounds _).2, rfl⟩
  · intro v
    unfold validate_email
    dsimp only
    split_ifs <;> exact ⟨⟨rfl, rfl⟩, fun h => by
      first | rfl | exact h.elim | exact Bool.noConfusion h⟩
  · intro v
    unfold validate_phone
    dsimp only
    split_ifs <;> exact ⟨⟨rfl, rfl⟩, fun h => by
      first | rfl | exact h.elim | exact Bool.noConfusion h⟩
  · intro v
    unfold validate_name
    dsimp only
    split_ifs <;> exact ⟨⟨rfl, rfl⟩, fun h => by
      first | rfl | exact h.elim | exact Bool.noConfusion h⟩
  · intro v ty
    unfold validate_url
    dsimp only
    split_ifs <;> exact ⟨⟨rfl, rfl⟩, fun h => by
      first | rfl | exact h.elim | exact Bool.noConfusion h⟩
  · intro v
    unfold validate_department
    dsimp only
    repeat' split
    all_goals exact ⟨⟨rfl, rfl⟩, fun h => by
      first | rfl | exact h.elim | exact Bool.noConfusion h⟩
  · intro v f
    unfold validate_array_field
    dsimp only
    repeat' split
    all_goals exact ⟨⟨rfl, rfl⟩, fun h => by
      first | rfl | exact h.elim | exact Bool.noConfusion h⟩

/-- C2 witness: a concrete rejected email is nulled, via the amended
invariant theorem. -/
theorem C2_outcome_invariants_witness :
    (validate_email (pstr (str "bad"))).value = pnone :=
  (C2_outcome_invariants.2.2.1 (pstr (str "bad"))).2 (by decide)


/-- The email block scores 30 exactly when the email-local rule holds. -/
theorem email_match_fallback_score (s : Str) (e : Employee) :
    (email_match_fallback s e).score = if emailLocalRule s e then 30 else 0 := by
  unfold email_match_fallback emailLocalRule
  dsimp only
  by_cases h : e.email = []
  · simp [h]
  · simp only [h, ne_eq, not_false_eq_true, if_true, List.isEmpty_iff, Bool.not_eq_true']
    split_ifs with h1 h2 h2 <;> simp_all

set_option maxHeartbeats 1000000 in
/-- C3 (amended): for every reference string and employee with a non-empty
name, the match score equals the first matching rule of the fixed rubric in
descending priority — exact normalized equality 100; case-only difference
95; equality with hyphens/spaces removed 90; same word set, both ≥ 2 words,
85; normalized reference in normalized name 70; converse containment 65; a
reference token of ≥ 3 characters inside the name 50; a name token of ≥ 4
characters containing or starting with a reference token *of ≥ 3
characters* 40; phonetic similarity 35 — Soundex equality on the first or
last token when the token counts differ, otherwise Soundex equality on at
least half the aligned token pairs; email-local match 30; otherwise 0. -/
theorem C3_match_rubric (reference : Str) (e : Employee) (h : e.name ≠ []) :
    (calculate_match_score reference e).score = rubric_amended reference e := by
  unfold calculate_match_score rubric_amended
  dsimp only
  rw [if_pos h]
  by_cases h1 : normalize_name reference = normalize_name e.name
  · simp only [if_pos h1]
  · simp only [if_neg h1]
    by_cases h2 : pyLower reference = pyLower e.name
    · simp only [if_pos h2]
    · simp only [if_neg h2]
      by_cases h3 : (normalize_name reference).filter (fun c => c ≠ ' ') =
          (normalize_name e.name).filter (fun c => c ≠ ' ')
      · simp only [if_pos h3]
      · simp only [if_neg h3]
        by_cases h4 : 2 ≤ (pySplitWs (normalize_name reference)).length ∧
            2 ≤ (pySplitWs (normalize_name e.name)).length ∧
            sameWordSet (pySplitWs (normalize_name reference))
              (pySplitWs (normalize_name e.name)) = true
        · simp only [if_pos h4]
        · simp only [if_neg h4]
          by_cases h5 : strContains (normalize_name e.name) (normalize_name reference) = true
          · simp only [if_pos h5]
          · simp only [if_neg h5]
            by_cases h6 : strContains (normalize_name reference) (normalize_name e.name) = true
            · simp only [if_pos h6]
            · simp only [if_neg h6]
              cases hf : (pySplitWs (normalize_name reference)).find?
                  (fun part => 2 < part.length ∧
                    strContains (normalize_name e.name) part) with
              | some part =>
                  have hmem := List.mem_of_find?_eq_some hf
                  have hpred := List.find?_some hf
                  have hany : (pySplitWs (normalize_name reference)).any
                      (fun t => 2 < t.length ∧
                        strContains (normalize_name e.name) t) = true :=
                    List.any_eq_true.mpr ⟨part, hmem, hpred⟩
                  dsimp only
                  rw [if_pos hany]
              | none =>
                  have hnone := List.find?_eq_none.mp hf
                  dsimp only
                  have hany50 : ¬ ((pySplitWs (normalize_name reference)).any
                      (fun t => 2 < t.length ∧
                        strContains (normalize_name e.name) t) = true) := by
                    intro hc
                    obtain ⟨x, hx, hpx⟩ := List.any_eq_true.mp hc
                    exact absurd hpx (by simpa using hnone x hx)
                  rw [if_neg hany50]
                  by_cases h8 : (pySplitWs (normalize_name e.name)).any (fun np =>
                      3 < np.length ∧ (pySplitWs (normalize_name reference)).any (fun sp =>
                        2 < sp.length ∧ (strContains np sp || sp.isPrefixOf np))) = true
                  · simp only [if_pos h8]
                  · simp only [if_neg h8]
                    by_cases h9 : names_sound_similar reference e.name = true
                    · simp only [if_pos h9]
                    · simp only [if_neg h9]
                      exact email_match_fallback_score reference e

/-- C3 (counterexample): the rubric exactly as the claim states it diverges
from the code: for reference "john aa bb" against employee "jon cc dd" the
claimed rubric's phonetic rule fires (first tokens are Soundex-equal, 35)
while the code scores 0 (only one of three aligned token pairs matches); for
reference "al xy" against "alan park" the claimed rubric's rule 8 fires
("alan" starts with the 2-character token "al", 40) while the code scores 35
(its rule 8 demands a reference token of ≥ 3 characters). -/
theorem C3_counterexample :
    (rubric_claimed (str "john aa bb") emp_c3a = 35 ∧
      (calculate_match_score (str "john aa bb") emp_c3a).score = 0) ∧
    (rubric_claimed (str "al xy") emp_c3b = 40 ∧
      (calculate_match_score (str "al xy") emp_c3b).score = 35) := by
  exact ⟨⟨by decide, by decide⟩, ⟨by decide, by decide⟩⟩

/-- C3 witness: the rubric equivalence at a concrete reference/employee. -/
theorem C3_match_rubric_witness :
    (calculate_match_score (str "John") emp_js1).score =
      rubric_amended (str "John") emp_js1 :=
  C3_match_rubric (str "John") emp_js1 (by decide)


/-- The candidate list produced by `find_all_matches` is sorted by score,
descending (stable sort, like Python's `sort(..., reverse=True)`). -/
theorem find_all_matches_sorted (catalog : List Employee) (ref mt : Str) :
    (find_all_matches catalog ref mt).Sorted matchScoreGE := by
  unfold find_all_matches
  exact List.sorted_insertionSort matchScoreGE _

/-- An insertion sort is empty exactly when its input is. -/
theorem insertionSort_nil_iff {α : Type} {r : α → α → Prop} [DecidableRel r] (l : List α) :
    l.insertionSort r = [] ↔ l = [] := by
  constructor
  · intro h
    have := congrArg List.length h
    rw [List.length_insertionSort] at this
    exact List.length_eq_zero.mp this
  · intro h
    subst h
    rfl

/-- `find_all_matches` returns no candidates exactly when every catalog
entry scores zero. -/
theorem find_all_matches_nil_iff (catalog : List Employee) (ref : Str) :
    find_all_matches catalog ref (str "name") = [] ↔
      ∀ e ∈ catalog, (calculate_match_score ref e).score = 0 := by
  unfold find_all_matches
  dsimp only
  rw [insertionSort_nil_iff, List.filter_eq_nil_iff]
  simp [List.mem_map, Nat.not_lt, Nat.le_zero]
/-- C1 (counterexample): on a catalog where exactly one candidate reaches
the actionable threshold (scores 100 and 50) and is the unique top score,
resolution still returns `(null, candidates)` — the code returns a single
employee only when the whole scoring list has exactly one element. -/
theorem C1_counterexample :
    ((find_all_matches mixed_catalog (str "John Smith") (str "name")).countP
      (fun m => 70 ≤ m.score) = 1) ∧
    ((find_all_matches mixed_catalog (str "John Smith") (str "name")).map
      (fun m => m.score) = [100, 50]) ∧
    (resolve_employee_with_duplicates_name mixed_catalog (str "John Smith")).1 = none := by
  exact ⟨by decide, by decide, by decide⟩

/-- C1 (amended): for every catalog and name reference — no entry scoring
above zero gives `(null, [])`; exactly one scoring candidate whose score
reaches the threshold 70 gives that employee with its one-element list; a
single scoring candidate below 70, or two or more scoring candidates, give
`(null, all scoring candidates)`, always sorted by score descending; and
resolving "John" against two employees named "John Smith" yields `(null, _)`
with exactly two candidates scoring 70 each. -/
theorem C1_resolution_rule (catalog : List Employee) (ref : Str) :
    ((∀ e ∈ catalog, (calculate_match_score ref e).score = 0) →
      resolve_employee_with_duplicates_name catalog ref = (none, [])) ∧
    (∀ m, find_all_matches catalog ref (str "name") = [m] → 70 ≤ m.score →
      resolve_employee_with_duplicates_name catalog ref = (some m.employee, [m])) ∧
    (∀ m, find_all_matches catalog ref (str "name") = [m] → m.score < 70 →
      resolve_employee_with_duplicates_name catalog ref = (none, [m])) ∧
    (2 ≤ (find_all_matches catalog ref (str "name")).length →
      resolve_employee_with_duplicates_name catalog ref =
        (none, find_all_matches catalog ref (str "name"))) ∧
    (find_all_matches catalog ref (str "name")).Sorted matchScoreGE ∧
    (resolve_employee_with_duplicates_name john_smith_catalog (str "John")).1 = none ∧
    ((resolve_employee_with_duplicates_name john_smith_catalog (str "John")).2.map
      (fun m => m.score)) = [70, 70] := by
  refine ⟨?_, ?_, ?_, ?_, find_all_matches_sorted catalog ref (str "name"), by decide, by decide⟩
  · intro hall
    have hnil := (find_all_matches_nil_iff catalog ref).mpr hall
    unfold resolve_employee_with_duplicates_name
    rw [hnil]
  · intro m hm hs
    unfold resolve_employee_with_duplicates_name
    rw [hm]
    dsimp only
    rw [if_pos hs]
  · intro m hm hs
    unfold resolve_employee_with_duplicates_name
    rw [hm]
    dsimp only
    rw [if_neg (by omega : ¬ 70 ≤ m.score)]
  · intro h2
    unfold resolve_employee_with_duplicates_name
    rcases hms : find_all_matches catalog ref (str "name") with _ | ⟨m1, _ | ⟨m2, rest⟩⟩
    all_goals first
      | rfl
      | (exfalso; rw [hms] at h2; simp at h2)

/-- C1 witness: resolving "John" in the two-John-Smith catalog takes the
disambiguation branch of the amended decision rule. -/
theorem C1_resolution_rule_witness :
    resolve_employee_with_duplicates_name john_smith_catalog (str "John") =
      (none, find_all_matches john_smith_catalog (str "John") (str "name")) :=
  (C1_resolution_rule john_smith_catalog (str "John")).2.2.2.1 (by decide)


/-- `dict.get` on a cons cell. -/
theorem alistGet_cons (a : Str × PyVal) (d : List (Str × PyVal)) (k : Str) :
    alistGet (a :: d) k = if a.1 = k then some a.2 else alistGet d k := by
  by_cases h : a.1 = k
  · simp [alistGet, List.find?_cons_of_pos, h]
  · simp [alistGet, List.find?_cons_of_neg, h]

theorem alistGet_alistSet_ne {k k' : Str} (h : k ≠ k') (d : List (Str × PyVal)) (v : PyVal) :
    alistGet (alistSet d k v) k' = alistGet d k' := by
  induction d with
  | nil => rfl
  | cons a rest ih =>
      obtain ⟨ak, av⟩ := a
      show alistGet ((if ak = k then (ak, v) else (ak, av)) :: alistSet rest k v) k' = _
      by_cases hk : ak = k
      · have hne : ¬ ak = k' := fun hc => h (hk ▸ hc)
        rw [if_pos hk]
        simp [alistGet_cons, hne]
        exact ih
      · rw [if_neg hk]
        by_cases hk' : ak = k'
        · simp [alistGet_cons, hk']
        · simp [alistGet_cons, hk']
          exact ih

theorem alistGet_alistSet_self {d : List (Str × PyVal)} {k : Str}
    (h : (alistGet d k).isSome) (v : PyVal) :
    alistGet (alistSet d k v) k = some v := by
  induction d with
  | nil => simp [alistGet] at h
  | cons a rest ih =>
      obtain ⟨ak, av⟩ := a
      show alistGet ((if ak = k then (ak, v) else (ak, av)) :: alistSet rest k v) k = some v
      by_cases hk : ak = k
      · rw [if_pos hk]
        simp [alistGet_cons, hk]
      · rw [if_neg hk]
        rw [alistGet_cons] at h
        simp only [hk, if_false] at h
        simp [alistGet_cons, hk]
        exact ih h

/-- Setting one key leaves every other key's lookup unchanged. -/
theorem qvStep_get_ne (t : Str) (acc : List (Str × PyVal) × List Str) {f k : Str}
    (h : f ≠ k) : alistGet (qvStep t acc f).1 k = alistGet acc.1 k := by
  unfold qvStep
  dsimp only
  split_ifs with hc
  · exact alistGet_alistSet_ne h acc.1 pnone
  · rfl

theorem qvStep_warn_mono (t : Str) (acc : List (Str × PyVal) × List Str) (f : Str)
    {w : Str} (h : w ∈ acc.2) : w ∈ (qvStep t acc f).2 := by
  unfold qvStep
  dsimp only
  split_ifs with hc
  · exact List.mem_append_left _ h
  · exact h

theorem qvStep_phone (t : Str) (acc : List (Str × PyVal) × List Str) (v : Str)
    (hget : alistGet acc.1 (str "phone") = some (pstr v))
    (hsent : isSentinel (pstr v) = false) (hne : v ≠ []) :
    qvStep t acc (str "phone") =
      if strContains (pyLower t) (pyLower v) then acc
      else (alistSet acc.1 (str "phone") pnone,
        acc.2 ++ [str "[VERIFY] Field '" ++ str "phone" ++ str "' value '" ++ v ++
          str "' not found in text - setting to null"]) := by
  unfold qvStep
  rw [hget]
  dsimp only [Option.getD]
  have htr : pyTruthy (pstr v) = true := by simp [pyTruthy, hne]
  have hver : verify_extraction_field (str "phone") (pstr v) t =
      strContains (pyLower t) (pyLower v) := by
    unfold verify_extraction_field
    rw [show (pvBeq (pstr v) pnone || isSentinel (pstr v)) = false by
      simp [pvBeq, hsent]]
    dsimp only
    cases hc : strContains (pyLower t) (pyLower v) <;>
      simp [hc, show ¬ (str "phone" = str "name") by decide]
  rw [htr, hver]
  cases hc : strContains (pyLower t) (pyLower v) <;> simp [hc, pyStrOf]

/-- C8: for every extraction record and source text, an extracted non-null,
non-sentinel phone value that does not occur (case-insensitively) in the
source text is forced to null and a warning naming the field and the
rejected value is recorded; a phone value found in the text is kept
unchanged. -/
theorem C8_phone_verification (ext : List (Str × PyVal)) (text : Str) (v : Str)
    (hget : alistGet ext (str "phone") = some (pstr v))
    (hsent : isSentinel (pstr v) = false) (hne : v ≠ []) :
    (strContains (pyLower text) (pyLower v) = false →
      alistGet (quick_verify_extraction ext text).1 (str "phone") = some pnone ∧
      (str "[VERIFY] Field '" ++ str "phone" ++ str "' value '" ++ v ++
        str "' not found in text - setting to null") ∈
        (quick_verify_extraction ext text).2) ∧
    (strContains (pyLower text) (pyLower v) = true →
      alistGet (quick_verify_extraction ext text).1 (str "phone") = some (pstr v)) := by
  have hfold : quick_verify_extraction ext text =
      qvStep text (qvStep text (qvStep text (qvStep text (ext, []) (str "name"))
        (str "email")) (str "phone")) (str "position") := rfl
  have hget2 : alistGet (qvStep text (qvStep text (ext, []) (str "name"))
      (str "email")).1 (str "phone") = some (pstr v) := by
    rw [qvStep_get_ne text _ (by decide), qvStep_get_ne text _ (by decide)]
    exact hget
  have hstep := qvStep_phone text _ v hget2 hsent hne
  constructor
  · intro hc
    rw [hfold, hstep, if_neg (by simp [hc])]
    constructor
    · rw [qvStep_get_ne text _ (by decide : str "position" ≠ str "phone")]
      exact alistGet_alistSet_self (by rw [hget2]; rfl) pnone
    · apply qvStep_warn_mono
      exact List.mem_append_right _ (by simp)
  · intro hc
    rw [hfold, hstep, if_pos (by simp [hc])]
    rw [qvStep_get_ne text _ (by decide : str "position" ≠ str "phone")]
    exact hget2

/-- C8 witness: the record with phone "5551234567" verified against
"Bob Lee is an engineer" has its phone nulled with the warning recorded. -/
theorem C8_phone_verification_witness :
    alistGet (quick_verify_extraction c8_record (str "Bob Lee is an engineer")).1
        (str "phone") = some pnone ∧
    (str "[VERIFY] Field '" ++ str "phone" ++ str "' value '" ++ str "5551234567" ++
      str "' not found in text - setting to null") ∈
      (quick_verify_extraction c8_record (str "Bob Lee is an engineer")).2 :=
  (C8_phone_verification c8_record (str "Bob Lee is an engineer") (str "5551234567")
    (by decide) (by decide) (by decide)).1 (by decide)

end EMS
